import Mathlib

/-!
Verification of the simmem DV testbench helpers.

This file gives a shallow embedding, in Lean, of the C++ verification
scaffolding of the simmem repository (directory `dv/`): the AXI message
bit-packing helpers of the `simmem_top` and `simmem_write_only_nocontent`
variants, the `RealMemoryController` reference scoreboard, the response-time
report and mismatch-count loops of the randomized testbenches, the
clock-driver loop, and the identifier-mask arithmetic of the write response
bank testbench.  Machine integers (`uint64_t`, `u_int32_t`, `size_t`,
`int`/`long` with two's-complement arithmetic shifts) are embedded as `Nat`
with explicit reductions modulo the relevant power of two; `std::map` is
embedded as an association list whose keys are strictly sorted (the iteration
order invariant of `std::map`); `std::queue` is a `List` whose head is the
queue front.  C++ code whose execution is undefined (reading `front()` of an
empty queue, falling through `assert(false)`) is embedded with `Option`.
-/

/-! ## Constants from `simmem_axi_dimensions.h` (simmem_top variant) -/

def GlobalMemCapaW : Nat := 19

def IDWidth : Nat := 2

def NumIds : Nat := 2 ^ IDWidth

def AxAddrWidth : Nat := GlobalMemCapaW

def AxLenWidth : Nat := 8

def AxSizeWidth : Nat := 3

def AxBurstWidth : Nat := 2

def AxLockWidth : Nat := 2

def AxCacheWidth : Nat := 4

def AxProtWidth : Nat := 4

def AxQoSWidth : Nat := 4

def XLastWidth : Nat := 1

def XRespWidth : Nat := 10

def MaxBurstSizeField : Nat := 2

def MaxBurstEffSizeBytes : Nat := 2 ^ MaxBurstSizeField

def WStrbWidth : Nat := MaxBurstEffSizeBytes

def PackedW : Nat := 64

/-- Modelled from the spec: the constant `MaxBurstSizeBytes` is referenced by
`simmem_axi_structures.cc` (widths of the `data` fields of `WriteData` and
`ReadData`) but its defining header is not among the provided sources; the
dimensions header defines the burst-size-in-bytes quantity
`MaxBurstEffSizeBytes = 1 << MaxBurstSizeField`, with which we identify it. -/
def MaxBurstSizeBytes : Nat := MaxBurstEffSizeBytes

/-! ## 64-bit machine arithmetic helpers

`shl64`/`lshr` are the `uint64_t` shifts, `compl64` is `uint64_t` bitwise
complement, `asr64` is the arithmetic (sign-extending) right shift performed
on a signed 64-bit `long` whose two's-complement bit pattern is the given
`Nat`, and `sub64` is `uint64_t`/`size_t` subtraction. -/

def shl64 (x k : Nat) : Nat := (x <<< k) % 2 ^ 64

def compl64 (x : Nat) : Nat := x ^^^ (2 ^ 64 - 1)

def asr64 (x k : Nat) : Nat :=
  if x < 2 ^ 63 then x >>> k else compl64 (compl64 x >>> k)

def sub64 (a b : Nat) : Nat := (a + (2 ^ 64 - b % 2 ^ 64)) % 2 ^ 64

/-! ## Bit-packing helpers from `simmem_top/cpp/simmem_axi_structures.cc`

In the C++, `low_mask` of `single_from_packed` is
`~(1L << (PackedW - 1)) >> (PackedW - 1 - field_w)` (an arithmetic shift of
the positive value `0x7FFF...F`), and `low_mask` of `single_to_packed` is
`~((1L << (PackedW - 1)) >> (PackedW - 1 - field_w))` (complement of an
arithmetic shift of `INT64_MIN`). -/

def fromLowMask (field_w : Nat) : Nat :=
  asr64 (compl64 (shl64 1 (PackedW - 1))) (PackedW - 1 - field_w)

def toLowMask (field_w : Nat) : Nat :=
  compl64 (asr64 (shl64 1 (PackedW - 1)) (PackedW - 1 - field_w))

def single_from_packed (packed field_w field_off : Nat) : Nat :=
  if field_w ≠ 0 then
    fromLowMask field_w &&&
      ((packed &&& shl64 (fromLowMask field_w) field_off) >>> field_off)
  else 0

def single_to_packed (packed field field_w field_off : Nat) : Nat :=
  if field_w ≠ 0 then
    (packed &&& compl64 (shl64 (toLowMask field_w) field_off)) |||
      shl64 (toLowMask field_w &&& field) field_off
  else packed

/-! ## AXI structures of the simmem_top variant
(`simmem_top/cpp/simmem_axi_structures.cc`) -/

structure WriteAddressRequest where
  id : Nat
  addr : Nat
  burst_len : Nat
  burst_size : Nat
  burst_type : Nat
  lock_type : Nat
  mem_type : Nat
  prot : Nat
  qos : Nat
deriving DecidableEq

namespace WriteAddressRequest

def id_w : Nat := IDWidth

def addr_w : Nat := AxAddrWidth

def burst_len_w : Nat := AxLenWidth

def burst_size_w : Nat := AxSizeWidth

def burst_type_w : Nat := AxBurstWidth

def lock_type_w : Nat := AxLockWidth

def mem_type_w : Nat := AxCacheWidth

def prot_w : Nat := AxProtWidth

def qos_w : Nat := AxQoSWidth

def id_off : Nat := 0

def addr_off : Nat := id_off + id_w

def burst_len_off : Nat := addr_off + addr_w

def burst_size_off : Nat := burst_len_off + burst_len_w

def burst_type_off : Nat := burst_size_off + burst_size_w

def lock_type_off : Nat := burst_type_off + burst_type_w

def mem_type_off : Nat := lock_type_off + lock_type_w

def prot_off : Nat := mem_type_off + mem_type_w

def qos_off : Nat := prot_off + prot_w

def from_packed (packed : Nat) : WriteAddressRequest :=
  { id := single_from_packed packed id_w id_off,
    addr := single_from_packed packed addr_w addr_off,
    burst_len := single_from_packed packed burst_len_w burst_len_off,
    burst_size := single_from_packed packed burst_size_w burst_size_off,
    burst_type := single_from_packed packed burst_type_w burst_type_off,
    lock_type := single_from_packed packed lock_type_w lock_type_off,
    mem_type := single_from_packed packed mem_type_w mem_type_off,
    prot := single_from_packed packed prot_w prot_off,
    qos := single_from_packed packed qos_w qos_off }

def to_packed (x : WriteAddressRequest) : Nat :=
  single_to_packed
    (single_to_packed
      (single_to_packed
        (single_to_packed
          (single_to_packed
            (single_to_packed
              (single_to_packed
                (single_to_packed
                  (single_to_packed 0 x.id id_w id_off)
                  x.addr addr_w addr_off)
                x.burst_len burst_len_w burst_len_off)
              x.burst_size burst_size_w burst_size_off)
            x.burst_type burst_type_w burst_type_off)
          x.lock_type lock_type_w lock_type_off)
        x.mem_type mem_type_w mem_type_off)
      x.prot prot_w prot_off)
    x.qos qos_w qos_off

end WriteAddressRequest

structure ReadAddressRequest where
  id : Nat
  addr : Nat
  burst_len : Nat
  burst_size : Nat
  burst_type : Nat
  lock_type : Nat
  mem_type : Nat
  prot : Nat
  qos : Nat
deriving DecidableEq

namespace ReadAddressRequest

def id_w : Nat := IDWidth

def addr_w : Nat := AxAddrWidth

def burst_len_w : Nat := AxLenWidth

def burst_size_w : Nat := AxSizeWidth

def burst_type_w : Nat := AxBurstWidth

def lock_type_w : Nat := AxLockWidth

def mem_type_w : Nat := AxCacheWidth

def prot_w : Nat := AxProtWidth

def qos_w : Nat := AxQoSWidth

def id_off : Nat := 0

def addr_off : Nat := id_off + id_w

def burst_len_off : Nat := addr_off + addr_w

def burst_size_off : Nat := burst_len_off + burst_len_w

def burst_type_off : Nat := burst_size_off + burst_size_w

def lock_type_off : Nat := burst_type_off + burst_type_w

def mem_type_off : Nat := lock_type_off + lock_type_w

def prot_off : Nat := mem_type_off + mem_type_w

def qos_off : Nat := prot_off + prot_w

def from_packed (packed : Nat) : ReadAddressRequest :=
  { id := single_from_packed packed id_w id_off,
    addr := single_from_packed packed addr_w addr_off,
    burst_len := single_from_packed packed burst_len_w burst_len_off,
    burst_size := single_from_packed packed burst_size_w burst_size_off,
    burst_type := single_from_packed packed burst_type_w burst_type_off,
    lock_type := single_from_packed packed lock_type_w lock_type_off,
    mem_type := single_from_packed packed mem_type_w mem_type_off,
    prot := single_from_packed packed prot_w prot_off,
    qos := single_from_packed packed qos_w qos_off }

def to_packed (x : ReadAddressRequest) : Nat :=
  single_to_packed
    (single_to_packed
      (single_to_packed
        (single_to_packed
          (single_to_packed
            (single_to_packed
              (single_to_packed
                (single_to_packed
                  (single_to_packed 0 x.id id_w id_off)
                  x.addr addr_w addr_off)
                x.burst_len burst_len_w burst_len_off)
              x.burst_size burst_size_w burst_size_off)
            x.burst_type burst_type_w burst_type_off)
          x.lock_type lock_type_w lock_type_off)
        x.mem_type mem_type_w mem_type_off)
      x.prot prot_w prot_off)
    x.qos qos_w qos_off

end ReadAddressRequest

structure WriteResponse where
  id : Nat
  rsp : Nat
deriving DecidableEq

namespace WriteResponse

def id_w : Nat := IDWidth

def rsp_w : Nat := XRespWidth

def id_off : Nat := 0

def rsp_off : Nat := id_off + id_w

def from_packed (packed : Nat) : WriteResponse :=
  { id := single_from_packed packed id_w id_off,
    rsp := single_from_packed packed rsp_w rsp_off }

def to_packed (x : WriteResponse) : Nat :=
  single_to_packed (single_to_packed 0 x.id id_w id_off) x.rsp rsp_w rsp_off

end WriteResponse

structure WriteData where
  id : Nat
  data : Nat
  strb : Nat
  last : Nat
deriving DecidableEq

namespace WriteData

def id_w : Nat := IDWidth

def data_w : Nat := MaxBurstSizeBytes

def strb_w : Nat := WStrbWidth

def last_w : Nat := XLastWidth

def id_off : Nat := 0

def data_off : Nat := id_off + id_w

def strb_off : Nat := data_off + data_w

def last_off : Nat := strb_off + strb_w

def from_packed (packed : Nat) : WriteData :=
  { id := single_from_packed packed id_w id_off,
    data := single_from_packed packed data_w data_off,
    strb := single_from_packed packed strb_w strb_off,
    last := single_from_packed packed last_w last_off }

def to_packed (x : WriteData) : Nat :=
  single_to_packed
    (single_to_packed
      (single_to_packed
        (single_to_packed 0 x.id id_w id_off)
        x.data data_w data_off)
      x.strb strb_w strb_off)
    x.last last_w last_off

end WriteData

structure ReadData where
  id : Nat
  data : Nat
  rsp : Nat
  last : Nat
deriving DecidableEq

namespace ReadData

def id_w : Nat := IDWidth

def data_w : Nat := MaxBurstSizeBytes

def rsp_w : Nat := XRespWidth

def last_w : Nat := XLastWidth

def id_off : Nat := 0

def data_off : Nat := id_off + id_w

def rsp_off : Nat := data_off + data_w

def last_off : Nat := rsp_off + rsp_w

def from_packed (packed : Nat) : ReadData :=
  { id := single_from_packed packed id_w id_off,
    data := single_from_packed packed data_w data_off,
    rsp := single_from_packed packed rsp_w rsp_off,
    last := single_from_packed packed last_w last_off }

def to_packed (x : ReadData) : Nat :=
  single_to_packed
    (single_to_packed
      (single_to_packed
        (single_to_packed 0 x.id id_w id_off)
        x.data data_w data_off)
      x.rsp rsp_w rsp_off)
    x.last last_w last_off

end ReadData

/-! ## AXI structures of the write_only_nocontent variant
(`simmem_write_only_nocontent/cpp/simmem_axi_structures.cc`).

The mask there is `(1UL << (PackedWidth - 1)) >> (PackedWidth - width)`
(unsigned shifts), each `to_packed` step is
`packed &= low_mask << offset; packed |= (~low_mask & field) << offset;`,
the `protection_type` branch of `from_packed` is guarded by
`if (!protection_type_width)`, and the `id` branch of
`WriteResponse::to_packed` is guarded by `if (!id_width)`. -/

namespace NoContent

/-- Modelled from the spec: the dimensions header of the
write_only_nocontent variant is not among the provided sources; following the
"fixed-width bit-packed encoding" description and the constants of the
simmem_top dimensions header (which the comment there says must match the
RTL package), `PackedWidth` is the packed word width, 64. -/
def PackedWidth : Nat := 64

def ncLowMask (width : Nat) : Nat :=
  shl64 1 (PackedWidth - 1) >>> (PackedWidth - width)

/-- One `to_packed` step of the nocontent variant (the body of each
`if (width)` block). -/
def ncStep (packed field width offset : Nat) : Nat :=
  (packed &&& shl64 (ncLowMask width) offset) |||
    shl64 (compl64 (ncLowMask width) &&& field) offset

/-- One `from_packed` field read of the nocontent variant. -/
def ncRead (packed width offset : Nat) : Nat :=
  ncLowMask width &&& ((packed &&& shl64 (ncLowMask width) offset) >>> offset)

structure WriteAddressRequest where
  id : Nat
  addr : Nat
  burst_length : Nat
  burst_size : Nat
  burst_type : Nat
  lock_type : Nat
  memory_type : Nat
  protection_type : Nat
  qos : Nat
deriving DecidableEq

namespace WriteAddressRequest

/-- Modelled from the spec: widths come from the missing nocontent
dimensions header; taken equal to the simmem_top values. -/
def id_width : Nat := IDWidth

def addr_width : Nat := AxAddrWidth

def burst_length_width : Nat := AxLenWidth

def burst_size_width : Nat := AxSizeWidth

def burst_type_width : Nat := AxBurstWidth

def lock_type_width : Nat := AxLockWidth

def memory_type_width : Nat := AxCacheWidth

def protection_type_width : Nat := AxProtWidth

def qos_width : Nat := AxQoSWidth

def id_offset : Nat := 0

def addr_offset : Nat := id_offset + id_width

def burst_length_offset : Nat := addr_offset + addr_width

def burst_size_offset : Nat := burst_length_offset + burst_length_width

def burst_type_offset : Nat := burst_size_offset + burst_size_width

def lock_type_offset : Nat := burst_type_offset + burst_type_width

def memory_type_offset : Nat := lock_type_offset + lock_type_width

def protection_type_offset : Nat := memory_type_offset + memory_type_width

def qos_offset : Nat := protection_type_offset + protection_type_width

/-- `from_packed` mutates the receiver in place; the `protection_type`
branch is guarded by the inverted test `if (!protection_type_width)`, so with
`protection_type_width = 4` the field keeps its previous value. -/
def from_packed (s : WriteAddressRequest) (packed : Nat) :
    WriteAddressRequest :=
  { id := if id_width ≠ 0 then ncRead packed id_width id_offset else s.id,
    addr :=
      if addr_width ≠ 0 then ncRead packed addr_width addr_offset else s.addr,
    burst_length :=
      if burst_length_width ≠ 0 then
        ncRead packed burst_length_width burst_length_offset
      else s.burst_length,
    burst_size :=
      if burst_size_width ≠ 0 then
        ncRead packed burst_size_width burst_size_offset
      else s.burst_size,
    burst_type :=
      if burst_type_width ≠ 0 then
        ncRead packed burst_type_width burst_type_offset
      else s.burst_type,
    lock_type :=
      if lock_type_width ≠ 0 then
        ncRead packed lock_type_width lock_type_offset
      else s.lock_type,
    memory_type :=
      if memory_type_width ≠ 0 then
        ncRead packed memory_type_width memory_type_offset
      else s.memory_type,
    protection_type :=
      if protection_type_width = 0 then
        ncRead packed protection_type_width protection_type_offset
      else s.protection_type,
    qos :=
      if qos_width ≠ 0 then ncRead packed qos_width qos_offset else s.qos }

def to_packed (x : WriteAddressRequest) : Nat :=
  let p1 := if id_width ≠ 0 then ncStep 0 x.id id_width id_offset else 0
  let p2 :=
    if addr_width ≠ 0 then ncStep p1 x.addr addr_width addr_offset else p1
  let p3 :=
    if burst_length_width ≠ 0 then
      ncStep p2 x.burst_length burst_length_width burst_length_offset
    else p2
  let p4 :=
    if burst_size_width ≠ 0 then
      ncStep p3 x.burst_size burst_size_width burst_size_offset
    else p3
  let p5 :=
    if burst_type_width ≠ 0 then
      ncStep p4 x.burst_type burst_type_width burst_type_offset
    else p4
  let p6 :=
    if lock_type_width ≠ 0 then
      ncStep p5 x.lock_type lock_type_width lock_type_offset
    else p5
  let p7 :=
    if memory_type_width ≠ 0 then
      ncStep p6 x.memory_type memory_type_width memory_type_offset
    else p6
  let p8 :=
    if protection_type_width ≠ 0 then
      ncStep p7 x.protection_type protection_type_width protection_type_offset
    else p7
  if qos_width ≠ 0 then ncStep p8 x.qos qos_width qos_offset else p8

end WriteAddressRequest

structure WriteResponse where
  id : Nat
  content : Nat
deriving DecidableEq

namespace WriteResponse

/-- Modelled from the spec: widths come from the missing nocontent
dimensions header; taken equal to the simmem_top values. -/
def id_width : Nat := IDWidth

def content_width : Nat := XRespWidth

def id_offset : Nat := 0

def content_offset : Nat := id_offset + id_width

def from_packed (s : WriteResponse) (packed : Nat) : WriteResponse :=
  { id := if id_width ≠ 0 then ncRead packed id_width id_offset else s.id,
    content :=
      if content_width ≠ 0 then ncRead packed content_width content_offset
      else s.content }

/-- The `id` branch is guarded by the inverted test `if (!id_width)`, so with
`id_width = 2` the identifier is never written to the packed word. -/
def to_packed (x : WriteResponse) : Nat :=
  let p1 := if id_width = 0 then ncStep 0 x.id id_width id_offset else 0
  if content_width ≠ 0 then ncStep p1 x.content content_width content_offset
  else p1

end WriteResponse

end NoContent

/-! ## Association-list embedding of the `std::map`-of-queues state

`std::map` iterates its entries in strictly increasing key order; a map is
embedded as an association list whose keys are strictly sorted, and a
`std::queue` as a `List` whose head is the front. -/

abbrev keysSorted {β : Type} (m : List (Nat × β)) : Prop :=
  List.Pairwise (fun a b => a.1 < b.1) m

/-- Loop `for (it = m.begin(); it != m.end(); it++) if (it->second.size())
return true; return false;`. -/
def mapHasAny {β : Type} : List (Nat × List β) → Bool
  | [] => false
  | (_, q) :: rest => if q.isEmpty then mapHasAny rest else true

/-- Loop returning `it->second.front()` at the first non-empty queue;
falling through to `assert(false)` is `none`. -/
def mapGetFirst {β : Type} : List (Nat × List β) → Option β
  | [] => none
  | (_, q) :: rest =>
    match q with
    | [] => mapGetFirst rest
    | x :: _ => some x

/-- Loop popping the first non-empty queue; falling through to
`assert(false)` is `none`. -/
def mapPopFirst {β : Type} : List (Nat × List β) → Option (List (Nat × List β))
  | [] => none
  | (k, q) :: rest =>
    match q with
    | [] => (mapPopFirst rest).map (fun t => (k, ([] : List β)) :: t)
    | _ :: qt => some ((k, qt) :: rest)

/-- `m[k].push(x)`: `std::map::operator[]` default-inserts a missing key at
its sorted position, then the element is appended at the queue back. -/
def mapPush {β : Type} : List (Nat × List β) → Nat → β → List (Nat × List β)
  | [], k, x => [(k, [x])]
  | (k1, q) :: rest, k, x =>
    if k = k1 then (k1, q ++ [x]) :: rest
    else if k < k1 then (k, [x]) :: (k1, q) :: rest
    else (k1, q) :: mapPush rest k x

/-- `m[k]++`: `std::map::operator[]` default-inserts `0` at the sorted
position of a missing key, then increments. -/
def bumpCount : List (Nat × Nat) → Nat → List (Nat × Nat)
  | [], k => [(k, 1)]
  | (k1, v) :: rest, k =>
    if k = k1 then (k1, v + 1) :: rest
    else if k < k1 then (k, 1) :: (k1, v) :: rest
    else (k1, v) :: bumpCount rest k

/-- Read access `m[k]` for a map of queues (empty queue when absent). -/
def lookupQ {β : Type} : List (Nat × List β) → Nat → List β
  | [], _ => []
  | (k1, q) :: rest, k => if k = k1 then q else lookupQ rest k

/-- Read access `m[k]` for a map of counters (zero when absent). -/
def lookupCnt : List (Nat × Nat) → Nat → Nat
  | [], _ => 0
  | (k1, v) :: rest, k => if k = k1 then v else lookupCnt rest k

/-- The map with the queue at key `k` replaced by `q`. -/
def setQueue {β : Type} (m : List (Nat × List β)) (k : Nat) (q : List β) :
    List (Nat × List β) :=
  m.map (fun e => if e.1 = k then (k, q) else e)

/-! ## `RealMemoryController` of `simmem_top/cpp/simmem_top_tb.cc` -/

structure RealMemoryController where
  spare_wdata_cnt : Nat
  wresp_out_queues : List (Nat × List WriteResponse)
  releasable_wresp_counts : List (Nat × Nat)
  wids_expecting_data : List (Nat × Nat)
  rdata_out_queues : List (Nat × List ReadData)
deriving DecidableEq

/-- The mask `~((1L << (PackedW - 1)) >> (PackedW - WriteResponse::rsp_w))`
used on the response copied out of an accepted write address. -/
def wrespLowMask : Nat :=
  compl64 (asr64 (shl64 1 (PackedW - 1)) (PackedW - WriteResponse.rsp_w))

def RealMemoryController.accept_waddr (c : RealMemoryController)
    (waddr : WriteAddressRequest) : RealMemoryController :=
  let new_resp : WriteResponse :=
    { id := waddr.id,
      rsp := (waddr.to_packed >>> WriteAddressRequest.id_w) &&& wrespLowMask }
  let c1 :=
    { c with wresp_out_queues := mapPush c.wresp_out_queues waddr.id new_resp }
  if waddr.burst_len ≤ c1.spare_wdata_cnt then
    { c1 with
      releasable_wresp_counts := bumpCount c1.releasable_wresp_counts waddr.id,
      spare_wdata_cnt := c1.spare_wdata_cnt - waddr.burst_len }
  else
    { c1 with
      wids_expecting_data :=
        c1.wids_expecting_data ++ [(waddr.id, waddr.burst_len)] }

/-- The read data pushed at loop index `i` of `accept_raddr`. -/
def mkReadData (raddr : ReadAddressRequest) (i : Nat) : ReadData :=
  { id := raddr.id,
    data := (raddr.addr + i) % 2 ^ 64,
    rsp := 0,
    last := if i = raddr.burst_len - 1 then 1 else 0 }

/-- The loop `for (i = 0; i < raddr.burst_len; i++) rdata_out_queues
[raddr.id].push(...)` after `n` iterations. -/
def acceptRaddrLoop (m : List (Nat × List ReadData))
    (raddr : ReadAddressRequest) : Nat → List (Nat × List ReadData)
  | 0 => m
  | n + 1 => mapPush (acceptRaddrLoop m raddr n) raddr.id (mkReadData raddr n)

def RealMemoryController.accept_raddr (c : RealMemoryController)
    (raddr : ReadAddressRequest) : RealMemoryController :=
  { c with
    rdata_out_queues :=
      acceptRaddrLoop c.rdata_out_queues raddr raddr.burst_len }

/-- `accept_wdata` reads `wids_expecting_data.front()` unconditionally:
calling it with no identifier awaiting data is undefined (`none`).  The
content of the provided write data is not considered. -/
def RealMemoryController.accept_wdata (c : RealMemoryController)
    (wdata : WriteData) : Option RealMemoryController :=
  match c.wids_expecting_data with
  | [] => none
  | (wid, blen) :: rest =>
    if blen ≤ c.spare_wdata_cnt + 1 then
      some { c with
        spare_wdata_cnt := c.spare_wdata_cnt + 1 - blen,
        releasable_wresp_counts := bumpCount c.releasable_wresp_counts wid,
        wids_expecting_data := rest }
    else
      some { c with spare_wdata_cnt := c.spare_wdata_cnt + 1 }

def RealMemoryController.has_wresp_to_input (c : RealMemoryController) :
    Bool :=
  mapHasAny c.wresp_out_queues

def RealMemoryController.has_rdata_to_input (c : RealMemoryController) :
    Bool :=
  mapHasAny c.rdata_out_queues

def RealMemoryController.get_next_wresp (c : RealMemoryController) :
    Option WriteResponse :=
  mapGetFirst c.wresp_out_queues

def RealMemoryController.get_next_rdata (c : RealMemoryController) :
    Option ReadData :=
  mapGetFirst c.rdata_out_queues

def RealMemoryController.pop_next_wresp (c : RealMemoryController) :
    Option RealMemoryController :=
  (mapPopFirst c.wresp_out_queues).map
    (fun qs => { c with wresp_out_queues := qs })

def RealMemoryController.pop_next_rdata (c : RealMemoryController) :
    Option RealMemoryController :=
  (mapPopFirst c.rdata_out_queues).map
    (fun qs => { c with rdata_out_queues := qs })

/-! ## `RealMemoryController` of the write_only_nocontent testbench
(`simmem_write_only_nocontent_tb.cc`; its `add_waddr` uses the
`WriteAddress`/`WriteResponse` structure constants of the simmem_top
variant, which are the names it references). -/

structure NCRealMemoryController where
  wrsp_out_queues : List (Nat × List WriteResponse)
deriving DecidableEq

def NCRealMemoryController.add_waddr (c : NCRealMemoryController)
    (waddr : WriteAddressRequest) : NCRealMemoryController :=
  { wrsp_out_queues :=
      mapPush c.wrsp_out_queues waddr.id
        { id := waddr.id,
          rsp :=
            (waddr.to_packed >>> WriteAddressRequest.id_w) &&&
              wrespLowMask } }

def NCRealMemoryController.has_wrsp_to_input (c : NCRealMemoryController) :
    Bool :=
  mapHasAny c.wrsp_out_queues

def NCRealMemoryController.get_next_wresp (c : NCRealMemoryController) :
    Option WriteResponse :=
  mapGetFirst c.wrsp_out_queues

def NCRealMemoryController.pop_next_wresp (c : NCRealMemoryController) :
    Option NCRealMemoryController :=
  (mapPopFirst c.wrsp_out_queues).map (fun qs => { wrsp_out_queues := qs })

/-! ## Response time assessment loop of `randomized_testbench` -/

/-- The `while (!waddr_in_queues[id].empty() && !wresp_out_queues[id].empty())`
loop body: pop both fronts and report `out_time - in_time` (`size_t`
subtraction). -/
def delaysForId : List (Nat × WriteAddressRequest) →
    List (Nat × WriteResponse) → List Nat
  | (in_time, _) :: ins, (out_time, _) :: outs =>
    sub64 out_time in_time :: delaysForId ins outs
  | _, _ => []

/-- The report loop over `curr_id = 0 .. num_identifiers - 1`. -/
def responseTimeReport (num_identifiers : Nat)
    (waddr_in_queues : List (Nat × List (Nat × WriteAddressRequest)))
    (wresp_out_queues : List (Nat × List (Nat × WriteResponse))) :
    List (List Nat) :=
  (List.range num_identifiers).map
    (fun curr_id =>
      delaysForId (lookupQ waddr_in_queues curr_id)
        (lookupQ wresp_out_queues curr_id))

/-! ## Mismatch counting loops of `simmem_write_resp_bank_tb.cc` -/

/-- The final `while (!input_queue.empty() && !output_queue.empty())` loop of
`single_id_test`: FIFO-pop both queues and count unequal pairs. -/
def countMismatches : List Nat → List Nat → Nat
  | a :: ins, b :: outs => (if a ≠ b then 1 else 0) + countMismatches ins outs
  | _, _ => 0

/-- The final double loop of `multiple_ids_test`, over identifiers
`0 .. num_identifiers - 1`. -/
def multipleIdsMismatches (num_identifiers : Nat)
    (input_queues output_queues : List (Nat × List Nat)) : Nat :=
  ((List.range num_identifiers).map
    (fun i =>
      countMismatches (lookupQ input_queues i) (lookupQ output_queues i))).sum

/-! ## Clock-driver loop (`SimmemTestbench::simmem_tick`,
`WriteRespBankTestbench::tick`)

The DUT (a Verilated module together with its non-clock input pins) is
abstracted by a state type `σ` with an evaluation function taking the current
`clk_i` value; the trace is the list of `dump` timestamps. -/

structure SimmemTestbench (σ : Type) where
  tick_count : Nat
  trailing_clock_cycles : Nat
  record_trace : Bool
  clk_i : Nat
  dut : σ
  trace : List Nat

/-- The body of one iteration of the `for` loop of `simmem_tick`. -/
def tickOnce {σ : Type} (eval : Nat → σ → σ) (tb : SimmemTestbench σ) :
    SimmemTestbench σ :=
  let tc := tb.tick_count + 1
  let d1 := eval 0 tb.dut
  let tr1 := if tb.record_trace then tb.trace ++ [5 * tc - 1] else tb.trace
  let d2 := eval 1 d1
  let tr2 := if tb.record_trace then tr1 ++ [5 * tc] else tr1
  let d3 := eval 0 d2
  let tr3 := if tb.record_trace then tr2 ++ [5 * tc + 2] else tr2
  { tb with tick_count := tc, clk_i := 0, dut := d3, trace := tr3 }

def simmem_tick {σ : Type} (eval : Nat → σ → σ) :
    Nat → SimmemTestbench σ → SimmemTestbench σ
  | 0, tb => tb
  | n + 1, tb => simmem_tick eval n (tickOnce eval tb)

/-! ## Identifier mask of `WriteRespBankTestbench`
(`identifier_mask_ = (1 << 31) >> (31 - kIdWidth)`, signed 32-bit `int`
arithmetic; `get_identifier_mask()` widens the `u_int32_t` member to
`unsigned long`). -/

def kIdWidth : Nat := 4

def shl32 (x k : Nat) : Nat := (x <<< k) % 2 ^ 32

def compl32 (x : Nat) : Nat := x ^^^ (2 ^ 32 - 1)

def asr32 (x k : Nat) : Nat :=
  if x < 2 ^ 31 then x >>> k else compl32 (compl32 x >>> k)

def identifier_mask : Nat := asr32 (shl32 1 31) (31 - kIdWidth)

/-- The generated input word
`current_id | (u_int32_t)(rand() & get_identifier_mask())`. -/
def genInputWord (current_id r : Nat) : Nat :=
  current_id ||| ((r &&& identifier_mask) % 2 ^ 32)

/-- The output classification index
`current_output & ~get_identifier_mask()` (evaluated in `unsigned long`
after zero-extending the `u_int32_t` output). -/
def classifyOutput (value : Nat) : Nat := value &&& compl64 identifier_mask

/-! ### Mask evaluation -/

lemma fromLowMask_eval : ∀ w < 64, 1 ≤ w → fromLowMask w = 2 ^ w - 1 := by
  decide

lemma toLowMask_eval : ∀ w < 64, 1 ≤ w → toLowMask w = 2 ^ w - 1 := by
  decide

lemma fromLowMask_eq {w : Nat} (h1 : 1 ≤ w) (h2 : w ≤ 63) :
    fromLowMask w = 2 ^ w - 1 :=
  fromLowMask_eval w (by omega) h1

lemma toLowMask_eq {w : Nat} (h1 : 1 ≤ w) (h2 : w ≤ 63) :
    toLowMask w = 2 ^ w - 1 :=
  toLowMask_eval w (by omega) h1

/-! ### Bit-level characterization of the packing helpers -/

lemma shl64_small {x k m : Nat} (hx : x < 2 ^ m) (hk : k + m ≤ 64) :
    shl64 x k = x <<< k := by
  unfold shl64
  apply Nat.mod_eq_of_lt
  rw [Nat.shiftLeft_eq]
  calc x * 2 ^ k < 2 ^ m * 2 ^ k := (Nat.mul_lt_mul_right (Nat.two_pow_pos k)).mpr hx
  _ = 2 ^ (m + k) := (pow_add 2 m k).symm
  _ ≤ 2 ^ 64 := Nat.pow_le_pow_right (by norm_num) (by omega)

/-- `single_from_packed` reads exactly the bit range
`[field_off, field_off + field_w)` of the packed word. -/
lemma single_from_packed_eq {p w off : Nat} (h1 : 1 ≤ w) (h2 : w ≤ 63)
    (h3 : off + w ≤ 64) :
    single_from_packed p w off = (p >>> off) % 2 ^ w := by
  have hw0 : w ≠ 0 := by omega
  have hmask : (2:Nat) ^ w - 1 < 2 ^ w := by
    have : (0:Nat) < 2 ^ w := Nat.two_pow_pos w
    omega
  unfold single_from_packed
  rw [if_pos hw0, fromLowMask_eq h1 h2, shl64_small hmask h3]
  apply Nat.eq_of_testBit_eq
  intro i
  simp only [Nat.testBit_and, Nat.testBit_shiftRight, Nat.testBit_shiftLeft,
    Nat.testBit_mod_two_pow, Nat.testBit_two_pow_sub_one,
    Nat.add_sub_cancel_left, ge_iff_le, Nat.le_add_right, decide_True,
    Bool.true_and]
  by_cases hi : i < w <;> simp [hi]

/-- Inside its declared bit range, `single_to_packed` writes exactly the low
`field_w` bits of the field value. -/
lemma single_to_packed_testBit_inside {p f w off : Nat} (h1 : 1 ≤ w)
    (h2 : w ≤ 63) (h3 : off + w ≤ 64) {i : Nat} (hi : i < w) :
    (single_to_packed p f w off).testBit (off + i) = f.testBit i := by
  have hw0 : w ≠ 0 := by omega
  have hmask : (2:Nat) ^ w - 1 < 2 ^ w := by
    have : (0:Nat) < 2 ^ w := Nat.two_pow_pos w
    omega
  have hand : (2:Nat) ^ w - 1 &&& f < 2 ^ w :=
    Nat.lt_of_le_of_lt Nat.and_le_left hmask
  unfold single_to_packed
  rw [if_pos hw0, toLowMask_eq h1 h2, shl64_small hmask h3, shl64_small hand h3]
  unfold compl64
  simp only [Nat.testBit_or, Nat.testBit_and, Nat.testBit_xor,
    Nat.testBit_shiftLeft, Nat.testBit_two_pow_sub_one,
    Nat.add_sub_cancel_left, ge_iff_le, Nat.le_add_right, decide_True,
    Bool.true_and]
  have h64 : off + i < 64 := by omega
  simp [hi, h64]

/-- Outside its declared bit range (and within the 64-bit word),
`single_to_packed` leaves every bit of the packed word unchanged. -/
lemma single_to_packed_testBit_outside {p f w off : Nat} (h2 : w ≤ 63)
    (h3 : off + w ≤ 64) {j : Nat} (hj64 : j < 64)
    (hj : j < off ∨ off + w ≤ j) :
    (single_to_packed p f w off).testBit j = p.testBit j := by
  by_cases hw0 : w = 0
  · simp [single_to_packed, hw0]
  · have h1 : 1 ≤ w := by omega
    have hmask : (2:Nat) ^ w - 1 < 2 ^ w := by
      have : (0:Nat) < 2 ^ w := Nat.two_pow_pos w
      omega
    have hand : (2:Nat) ^ w - 1 &&& f < 2 ^ w :=
      Nat.lt_of_le_of_lt Nat.and_le_left hmask
    unfold single_to_packed
    rw [if_pos hw0, toLowMask_eq h1 h2, shl64_small hmask h3,
      shl64_small hand h3]
    unfold compl64
    simp only [Nat.testBit_or, Nat.testBit_and, Nat.testBit_xor,
      Nat.testBit_shiftLeft, Nat.testBit_two_pow_sub_one, ge_iff_le]
    rcases hj with hj | hj
    · have hoffj : ¬ (off ≤ j) := by omega
      simp [hoffj, hj64]
    · have hoffj : off ≤ j := by omega
      have hjw : ¬ (j - off < w) := by omega
      have hbit : Nat.testBit (2 ^ w - 1 &&& f) (j - off) = false :=
        Nat.testBit_lt_two_pow (Nat.lt_of_lt_of_le hand
          (Nat.pow_le_pow_right (by norm_num) (by omega)))
      simp [hoffj, hjw, hj64, hbit]

/-- Round trip through a single field: writing then reading a field recovers
the field value reduced to its width. -/
lemma single_round_trip {p f w off : Nat} (h1 : 1 ≤ w) (h2 : w ≤ 63)
    (h3 : off + w ≤ 64) :
    single_from_packed (single_to_packed p f w off) w off = f % 2 ^ w := by
  rw [single_from_packed_eq h1 h2 h3]
  apply Nat.eq_of_testBit_eq
  intro i
  simp only [Nat.testBit_mod_two_pow, Nat.testBit_shiftRight]
  by_cases hi : i < w
  · rw [single_to_packed_testBit_inside h1 h2 h3 hi]
  · simp [hi]

/-- Writing a field whose bit range is disjoint from the range being read does
not change the value read. -/
lemma single_from_to_disjoint {p f w off w2 off2 : Nat} (h1 : 1 ≤ w)
    (h2 : w ≤ 63) (h3 : off + w ≤ 64) (h2b : w2 ≤ 63) (h3b : off2 + w2 ≤ 64)
    (hdisj : off + w ≤ off2 ∨ off2 + w2 ≤ off) :
    single_from_packed (single_to_packed p f w2 off2) w off =
      single_from_packed p w off := by
  rw [single_from_packed_eq h1 h2 h3, single_from_packed_eq h1 h2 h3]
  apply Nat.eq_of_testBit_eq
  intro i
  simp only [Nat.testBit_mod_two_pow, Nat.testBit_shiftRight]
  by_cases hi : i < w
  · rw [single_to_packed_testBit_outside h2b h3b (by omega) (by omega)]
  · simp [hi]

/-! ### Structure-level round trips (simmem_top variant) -/

lemma war_round_trip (x : WriteAddressRequest)
    (h1 : x.id < 2 ^ WriteAddressRequest.id_w)
    (h2 : x.addr < 2 ^ WriteAddressRequest.addr_w)
    (h3 : x.burst_len < 2 ^ WriteAddressRequest.burst_len_w)
    (h4 : x.burst_size < 2 ^ WriteAddressRequest.burst_size_w)
    (h5 : x.burst_type < 2 ^ WriteAddressRequest.burst_type_w)
    (h6 : x.lock_type < 2 ^ WriteAddressRequest.lock_type_w)
    (h7 : x.mem_type < 2 ^ WriteAddressRequest.mem_type_w)
    (h8 : x.prot < 2 ^ WriteAddressRequest.prot_w)
    (h9 : x.qos < 2 ^ WriteAddressRequest.qos_w) :
    WriteAddressRequest.from_packed (WriteAddressRequest.to_packed x) = x := by
  obtain ⟨a1, a2, a3, a4, a5, a6, a7, a8, a9⟩ := x
  simp only [WriteAddressRequest.id_w, WriteAddressRequest.addr_w,
    WriteAddressRequest.burst_len_w, WriteAddressRequest.burst_size_w,
    WriteAddressRequest.burst_type_w, WriteAddressRequest.lock_type_w,
    WriteAddressRequest.mem_type_w, WriteAddressRequest.prot_w,
    WriteAddressRequest.qos_w, IDWidth, AxAddrWidth, GlobalMemCapaW,
    AxLenWidth, AxSizeWidth, AxBurstWidth, AxLockWidth, AxCacheWidth,
    AxProtWidth, AxQoSWidth] at h1 h2 h3 h4 h5 h6 h7 h8 h9
  simp only [WriteAddressRequest.from_packed, WriteAddressRequest.to_packed,
    WriteAddressRequest.id_w, WriteAddressRequest.addr_w,
    WriteAddressRequest.burst_len_w, WriteAddressRequest.burst_size_w,
    WriteAddressRequest.burst_type_w, WriteAddressRequest.lock_type_w,
    WriteAddressRequest.mem_type_w, WriteAddressRequest.prot_w,
    WriteAddressRequest.qos_w, WriteAddressRequest.id_off,
    WriteAddressRequest.addr_off, WriteAddressRequest.burst_len_off,
    WriteAddressRequest.burst_size_off, WriteAddressRequest.burst_type_off,
    WriteAddressRequest.lock_type_off, WriteAddressRequest.mem_type_off,
    WriteAddressRequest.prot_off, WriteAddressRequest.qos_off, IDWidth,
    AxAddrWidth, GlobalMemCapaW, AxLenWidth, AxSizeWidth, AxBurstWidth,
    AxLockWidth, AxCacheWidth, AxProtWidth, AxQoSWidth,
    WriteAddressRequest.mk.injEq]
  norm_num
  simp [single_from_to_disjoint, single_round_trip]
  omega

lemma rar_round_trip (x : ReadAddressRequest)
    (h1 : x.id < 2 ^ ReadAddressRequest.id_w)
    (h2 : x.addr < 2 ^ ReadAddressRequest.addr_w)
    (h3 : x.burst_len < 2 ^ ReadAddressRequest.burst_len_w)
    (h4 : x.burst_size < 2 ^ ReadAddressRequest.burst_size_w)
    (h5 : x.burst_type < 2 ^ ReadAddressRequest.burst_type_w)
    (h6 : x.lock_type < 2 ^ ReadAddressRequest.lock_type_w)
    (h7 : x.mem_type < 2 ^ ReadAddressRequest.mem_type_w)
    (h8 : x.prot < 2 ^ ReadAddressRequest.prot_w)
    (h9 : x.qos < 2 ^ ReadAddressRequest.qos_w) :
    ReadAddressRequest.from_packed (ReadAddressRequest.to_packed x) = x := by
  obtain ⟨a1, a2, a3, a4, a5, a6, a7, a8, a9⟩ := x
  simp only [ReadAddressRequest.id_w, ReadAddressRequest.addr_w,
    ReadAddressRequest.burst_len_w, ReadAddressRequest.burst_size_w,
    ReadAddressRequest.burst_type_w, ReadAddressRequest.lock_type_w,
    ReadAddressRequest.mem_type_w, ReadAddressRequest.prot_w,
    ReadAddressRequest.qos_w, IDWidth, AxAddrWidth, GlobalMemCapaW,
    AxLenWidth, AxSizeWidth, AxBurstWidth, AxLockWidth, AxCacheWidth,
    AxProtWidth, AxQoSWidth] at h1 h2 h3 h4 h5 h6 h7 h8 h9
  simp only [ReadAddressRequest.from_packed, ReadAddressRequest.to_packed,
    ReadAddressRequest.id_w, ReadAddressRequest.addr_w,
    ReadAddressRequest.burst_len_w, ReadAddressRequest.burst_size_w,
    ReadAddressRequest.burst_type_w, ReadAddressRequest.lock_type_w,
    ReadAddressRequest.mem_type_w, ReadAddressRequest.prot_w,
    ReadAddressRequest.qos_w, ReadAddressRequest.id_off,
    ReadAddressRequest.addr_off, ReadAddressRequest.burst_len_off,
    ReadAddressRequest.burst_size_off, ReadAddressRequest.burst_type_off,
    ReadAddressRequest.lock_type_off, ReadAddressRequest.mem_type_off,
    ReadAddressRequest.prot_off, ReadAddressRequest.qos_off, IDWidth,
    AxAddrWidth, GlobalMemCapaW, AxLenWidth, AxSizeWidth, AxBurstWidth,
    AxLockWidth, AxCacheWidth, AxProtWidth, AxQoSWidth,
    ReadAddressRequest.mk.injEq]
  norm_num
  simp [single_from_to_disjoint, single_round_trip]
  omega

lemma wresp_round_trip (x : WriteResponse)
    (h1 : x.id < 2 ^ WriteResponse.id_w)
    (h2 : x.rsp < 2 ^ WriteResponse.rsp_w) :
    WriteResponse.from_packed (WriteResponse.to_packed x) = x := by
  obtain ⟨a1, a2⟩ := x
  simp only [WriteResponse.id_w, WriteResponse.rsp_w, IDWidth,
    XRespWidth] at h1 h2
  simp only [WriteResponse.from_packed, WriteResponse.to_packed,
    WriteResponse.id_w, WriteResponse.rsp_w, WriteResponse.id_off,
    WriteResponse.rsp_off, IDWidth, XRespWidth, WriteResponse.mk.injEq]
  norm_num
  simp [single_from_to_disjoint, single_round_trip]
  omega

lemma wdata_round_trip (x : WriteData)
    (h1 : x.id < 2 ^ WriteData.id_w)
    (h2 : x.data < 2 ^ WriteData.data_w)
    (h3 : x.strb < 2 ^ WriteData.strb_w)
    (h4 : x.last < 2 ^ WriteData.last_w) :
    WriteData.from_packed (WriteData.to_packed x) = x := by
  obtain ⟨a1, a2, a3, a4⟩ := x
  simp only [WriteData.id_w, WriteData.data_w, WriteData.strb_w,
    WriteData.last_w, IDWidth, MaxBurstSizeBytes, MaxBurstEffSizeBytes,
    MaxBurstSizeField, WStrbWidth, XLastWidth] at h1 h2 h3 h4
  simp only [WriteData.from_packed, WriteData.to_packed, WriteData.id_w,
    WriteData.data_w, WriteData.strb_w, WriteData.last_w, WriteData.id_off,
    WriteData.data_off, WriteData.strb_off, WriteData.last_off, IDWidth,
    MaxBurstSizeBytes, MaxBurstEffSizeBytes, MaxBurstSizeField, WStrbWidth,
    XLastWidth, WriteData.mk.injEq]
  norm_num
  simp [single_from_to_disjoint, single_round_trip]
  omega

lemma rdata_round_trip (x : ReadData)
    (h1 : x.id < 2 ^ ReadData.id_w)
    (h2 : x.data < 2 ^ ReadData.data_w)
    (h3 : x.rsp < 2 ^ ReadData.rsp_w)
    (h4 : x.last < 2 ^ ReadData.last_w) :
    ReadData.from_packed (ReadData.to_packed x) = x := by
  obtain ⟨a1, a2, a3, a4⟩ := x
  simp only [ReadData.id_w, ReadData.data_w, ReadData.rsp_w, ReadData.last_w,
    IDWidth, MaxBurstSizeBytes, MaxBurstEffSizeBytes, MaxBurstSizeField,
    XRespWidth, XLastWidth] at h1 h2 h3 h4
  simp only [ReadData.from_packed, ReadData.to_packed, ReadData.id_w,
    ReadData.data_w, ReadData.rsp_w, ReadData.last_w, ReadData.id_off,
    ReadData.data_off, ReadData.rsp_off, ReadData.last_off, IDWidth,
    MaxBurstSizeBytes, MaxBurstEffSizeBytes, MaxBurstSizeField, XRespWidth,
    XLastWidth, ReadData.mk.injEq]
  norm_num
  simp [single_from_to_disjoint, single_round_trip]
  omega

/-! ### Lemmas about the `std::map`-of-queues embedding -/

lemma mapHasAny_iff {β : Type} (m : List (Nat × List β)) :
    mapHasAny m = true ↔ ∃ e ∈ m, e.2 ≠ [] := by
  induction m with
  | nil => simp [mapHasAny]
  | cons hd tl ih =>
    obtain ⟨k, q⟩ := hd
    by_cases hq : q.isEmpty
    · have hqe : q = [] := by simpa using hq
      subst hqe
      simp [mapHasAny, ih]
    · have hqe : q ≠ [] := by simpa using hq
      constructor
      · intro _
        exact ⟨(k, q), List.mem_cons_self _ _, hqe⟩
      · intro _
        simp [mapHasAny, hq]

lemma mapGetFirst_isSome {β : Type} (m : List (Nat × List β)) :
    (mapGetFirst m).isSome = mapHasAny m := by
  induction m with
  | nil => simp [mapGetFirst, mapHasAny]
  | cons hd tl ih =>
    obtain ⟨k, q⟩ := hd
    cases q with
    | nil => simpa [mapGetFirst, mapHasAny] using ih
    | cons x xs => simp [mapGetFirst, mapHasAny]

lemma mapPopFirst_isSome {β : Type} (m : List (Nat × List β)) :
    (mapPopFirst m).isSome = mapHasAny m := by
  induction m with
  | nil => simp [mapPopFirst, mapHasAny]
  | cons hd tl ih =>
    obtain ⟨k, q⟩ := hd
    cases q with
    | nil => simpa [mapPopFirst, mapHasAny] using ih
    | cons x xs => simp [mapPopFirst, mapHasAny]

lemma setQueue_eq_self {β : Type} {m : List (Nat × List β)} {k : Nat}
    {q : List β} (h : ∀ e ∈ m, e.1 ≠ k) : setQueue m k q = m := by
  induction m with
  | nil => rfl
  | cons hd tl ih =>
    have hhd : hd.1 ≠ k := h hd (List.mem_cons_self _ _)
    simp only [setQueue, List.map_cons, if_neg hhd]
    have := ih (fun e he => h e (List.mem_cons_of_mem _ he))
    simpa [setQueue] using this

lemma mapGetFirst_min {β : Type} (m : List (Nat × List β)) (k : Nat)
    (q : List β) (hs : keysSorted m) (hin : (k, q) ∈ m) (hq : q ≠ [])
    (hmin : ∀ k1 q1, (k1, q1) ∈ m → q1 ≠ [] → k ≤ k1) :
    mapGetFirst m = q.head? := by
  induction m with
  | nil => cases hin
  | cons hd tl ih =>
    obtain ⟨k0, q0⟩ := hd
    have hpair := List.pairwise_cons.mp hs
    cases q0 with
    | nil =>
      have hin1 : (k, q) ∈ tl := by
        rcases List.mem_cons.mp hin with h | h
        · exact absurd (congrArg Prod.snd h) (by simpa using hq)
        · exact h
      simpa [mapGetFirst] using
        ih hpair.2 hin1
          (fun k1 q1 h1 h2 => hmin k1 q1 (List.mem_cons_of_mem _ h1) h2)
    | cons x xs =>
      have heq : (k, q) = (k0, x :: xs) := by
        rcases List.mem_cons.mp hin with h | h
        · exact h
        · have h1 : k0 < k := hpair.1 (k, q) h
          have h2 : k ≤ k0 :=
            hmin k0 (x :: xs) (List.mem_cons_self _ _) (by simp)
          omega
      have hk : q = x :: xs := congrArg Prod.snd heq
      simp [mapGetFirst, hk]

lemma mapPopFirst_min {β : Type} (m : List (Nat × List β)) (k : Nat)
    (q : List β) (hs : keysSorted m) (hin : (k, q) ∈ m) (hq : q ≠ [])
    (hmin : ∀ k1 q1, (k1, q1) ∈ m → q1 ≠ [] → k ≤ k1) :
    mapPopFirst m = some (setQueue m k q.tail) := by
  induction m with
  | nil => cases hin
  | cons hd tl ih =>
    obtain ⟨k0, q0⟩ := hd
    have hpair := List.pairwise_cons.mp hs
    cases q0 with
    | nil =>
      have hin1 : (k, q) ∈ tl := by
        rcases List.mem_cons.mp hin with h | h
        · exact absurd (congrArg Prod.snd h) (by simpa using hq)
        · exact h
      have hk0 : k0 ≠ k := by
        have : k0 < k := hpair.1 (k, q) hin1
        omega
      have := ih hpair.2 hin1
        (fun k1 q1 h1 h2 => hmin k1 q1 (List.mem_cons_of_mem _ h1) h2)
      simp [mapPopFirst, this, setQueue, hk0]
    | cons x xs =>
      have heq : (k, q) = (k0, x :: xs) := by
        rcases List.mem_cons.mp hin with h | h
        · exact h
        · have h1 : k0 < k := hpair.1 (k, q) h
          have h2 : k ≤ k0 :=
            hmin k0 (x :: xs) (List.mem_cons_self _ _) (by simp)
          omega
      have hk : k = k0 := congrArg Prod.fst heq
      have hqeq : q = x :: xs := congrArg Prod.snd heq
      subst hk
      have htl : setQueue tl k q.tail = tl :=
        setQueue_eq_self (fun e he => by
          have : k < e.1 := hpair.1 e he
          omega)
      simp [mapPopFirst, setQueue, hqeq] at htl ⊢
      simpa [setQueue] using htl.symm

lemma keysSorted_setQueue {β : Type} {m : List (Nat × List β)} {k : Nat}
    {q : List β} (hs : keysSorted m) : keysSorted (setQueue m k q) := by
  have hfst : ∀ e : Nat × List β,
      ((if e.1 = k then (k, q) else e) : Nat × List β).1 = e.1 := by
    intro e
    by_cases h : e.1 = k <;> simp [h]
  show List.Pairwise (fun a b => a.1 < b.1)
    (List.map (fun e => if e.1 = k then (k, q) else e) m)
  rw [List.pairwise_map]
  simpa [hfst] using hs

lemma mem_setQueue_self {β : Type} {m : List (Nat × List β)} {k : Nat}
    {q0 q : List β} (hin : (k, q0) ∈ m) : (k, q) ∈ setQueue m k q := by
  unfold setQueue
  have := List.mem_map_of_mem (fun e => if e.1 = k then (k, q) else e) hin
  simpa using this

lemma setQueue_setQueue {β : Type} (m : List (Nat × List β)) (k : Nat)
    (a b : List β) : setQueue (setQueue m k a) k b = setQueue m k b := by
  unfold setQueue
  rw [List.map_map]
  apply List.map_congr_left
  intro e _
  by_cases h : e.1 = k <;> simp [h]

lemma setQueue_self {β : Type} {m : List (Nat × List β)} {k : Nat}
    {q : List β} (hs : keysSorted m) (hin : (k, q) ∈ m) :
    setQueue m k q = m := by
  induction m with
  | nil => cases hin
  | cons hd tl ih =>
    obtain ⟨k0, q0⟩ := hd
    have hpair := List.pairwise_cons.mp hs
    by_cases hk : k0 = k
    · subst hk
      have hq : q = q0 := by
        rcases List.mem_cons.mp hin with h | h
        · exact congrArg Prod.snd h
        · have : k0 < k0 := by simpa using hpair.1 (k0, q) h
          omega
      subst hq
      have htl : setQueue tl k0 q = tl :=
        setQueue_eq_self (fun e he => by
          have : k0 < e.1 := hpair.1 e he
          omega)
      simp only [setQueue, List.map_cons, if_pos rfl]
      simpa [setQueue] using htl
    · have hin1 : (k, q) ∈ tl := by
        rcases List.mem_cons.mp hin with h | h
        · exact absurd (congrArg Prod.fst h).symm hk
        · exact h
      have htl := ih hpair.2 hin1
      have hk0 : ¬ ((k0, q0) : Nat × List β).1 = k := by simpa using hk
      simp only [setQueue, List.map_cons, if_neg hk0]
      simpa [setQueue] using htl

lemma mapPush_present {β : Type} {m : List (Nat × List β)} {k : Nat}
    {q : List β} (hs : keysSorted m) (hin : (k, q) ∈ m) (x : β) :
    mapPush m k x = setQueue m k (q ++ [x]) := by
  induction m with
  | nil => cases hin
  | cons hd tl ih =>
    obtain ⟨k0, q0⟩ := hd
    have hpair := List.pairwise_cons.mp hs
    by_cases hk : k = k0
    · subst hk
      have hq : q = q0 := by
        rcases List.mem_cons.mp hin with h | h
        · exact congrArg Prod.snd h
        · have : k < k := by simpa using hpair.1 (k, q) h
          omega
      subst hq
      have htl : setQueue tl k (q ++ [x]) = tl :=
        setQueue_eq_self (fun e he => by
          have : k < e.1 := hpair.1 e he
          omega)
      simp only [mapPush, if_pos rfl, setQueue, List.map_cons]
      simpa [setQueue] using htl.symm
    · have hin1 : (k, q) ∈ tl := by
        rcases List.mem_cons.mp hin with h | h
        · exact absurd (congrArg Prod.fst h) hk
        · exact h
      have hlt : k0 < k := hpair.1 (k, q) hin1
      have hk0 : ¬ ((k0, q0) : Nat × List β).1 = k := by
        simp
        omega
      have hnk : ¬ k < k0 := by omega
      have ihh := ih hpair.2 hin1
      simp only [mapPush, if_neg hk, if_neg hnk, setQueue, List.map_cons,
        if_neg hk0, ihh]

lemma acceptRaddrLoop_eq {m : List (Nat × List ReadData)}
    {raddr : ReadAddressRequest} {q : List ReadData} (hs : keysSorted m)
    (hin : (raddr.id, q) ∈ m) (n : Nat) :
    acceptRaddrLoop m raddr n =
      setQueue m raddr.id (q ++ (List.range n).map (mkReadData raddr)) := by
  induction n with
  | zero =>
    simp only [acceptRaddrLoop, List.range_zero, List.map_nil,
      List.append_nil]
    exact (setQueue_self hs hin).symm
  | succ n ih =>
    have hs1 : keysSorted (setQueue m raddr.id
        (q ++ (List.range n).map (mkReadData raddr))) :=
      keysSorted_setQueue hs
    have hin1 : (raddr.id, q ++ (List.range n).map (mkReadData raddr)) ∈
        setQueue m raddr.id (q ++ (List.range n).map (mkReadData raddr)) :=
      mem_setQueue_self hin
    simp only [acceptRaddrLoop, ih]
    rw [mapPush_present hs1 hin1, setQueue_setQueue]
    simp [List.range_succ]

/-! ## Claims -/

/-- C1: In the simmem_top variant, packing then unpacking restores every
field: the helpers satisfy
`single_from_packed (single_to_packed p f w off) w off = f % 2 ^ w` for every
packed `p`, field `f`, width `1 ≤ w ≤ 63` and offset with `off + w ≤ 64`;
each field occupies exactly its declared `[off, off + w)` bit range
(`single_from_packed` reads exactly that range, `single_to_packed` writes the
low `w` bits of the field there and changes no bit outside it); and for every
`WriteAddressRequest`, `ReadAddressRequest`, `WriteResponse`, `WriteData` and
`ReadData` whose field values each fit in their declared widths,
`from_packed (to_packed x)` yields a structure with all fields equal to those
of `x`. -/
theorem claim_C1 :
    (∀ p f w off : Nat, 1 ≤ w → w ≤ 63 → off + w ≤ 64 →
      single_from_packed (single_to_packed p f w off) w off = f % 2 ^ w) ∧
    (∀ p w off : Nat, 1 ≤ w → w ≤ 63 → off + w ≤ 64 →
      single_from_packed p w off = (p >>> off) % 2 ^ w) ∧
    (∀ p f w off i : Nat, 1 ≤ w → w ≤ 63 → off + w ≤ 64 → i < w →
      (single_to_packed p f w off).testBit (off + i) = f.testBit i) ∧
    (∀ p f w off j : Nat, w ≤ 63 → off + w ≤ 64 → j < 64 →
      j < off ∨ off + w ≤ j →
      (single_to_packed p f w off).testBit j = p.testBit j) ∧
    (∀ x : WriteAddressRequest,
      x.id < 2 ^ WriteAddressRequest.id_w →
      x.addr < 2 ^ WriteAddressRequest.addr_w →
      x.burst_len < 2 ^ WriteAddressRequest.burst_len_w →
      x.burst_size < 2 ^ WriteAddressRequest.burst_size_w →
      x.burst_type < 2 ^ WriteAddressRequest.burst_type_w →
      x.lock_type < 2 ^ WriteAddressRequest.lock_type_w →
      x.mem_type < 2 ^ WriteAddressRequest.mem_type_w →
      x.prot < 2 ^ WriteAddressRequest.prot_w →
      x.qos < 2 ^ WriteAddressRequest.qos_w →
      WriteAddressRequest.from_packed (WriteAddressRequest.to_packed x) = x) ∧
    (∀ x : ReadAddressRequest,
      x.id < 2 ^ ReadAddressRequest.id_w →
      x.addr < 2 ^ ReadAddressRequest.addr_w →
      x.burst_len < 2 ^ ReadAddressRequest.burst_len_w →
      x.burst_size < 2 ^ ReadAddressRequest.burst_size_w →
      x.burst_type < 2 ^ ReadAddressRequest.burst_type_w →
      x.lock_type < 2 ^ ReadAddressRequest.lock_type_w →
      x.mem_type < 2 ^ ReadAddressRequest.mem_type_w →
      x.prot < 2 ^ ReadAddressRequest.prot_w →
      x.qos < 2 ^ ReadAddressRequest.qos_w →
      ReadAddressRequest.from_packed (ReadAddressRequest.to_packed x) = x) ∧
    (∀ x : WriteResponse,
      x.id < 2 ^ WriteResponse.id_w → x.rsp < 2 ^ WriteResponse.rsp_w →
      WriteResponse.from_packed (WriteResponse.to_packed x) = x) ∧
    (∀ x : WriteData,
      x.id < 2 ^ WriteData.id_w → x.data < 2 ^ WriteData.data_w →
      x.strb < 2 ^ WriteData.strb_w → x.last < 2 ^ WriteData.last_w →
      WriteData.from_packed (WriteData.to_packed x) = x) ∧
    (∀ x : ReadData,
      x.id < 2 ^ ReadData.id_w → x.data < 2 ^ ReadData.data_w →
      x.rsp < 2 ^ ReadData.rsp_w → x.last < 2 ^ ReadData.last_w →
      ReadData.from_packed (ReadData.to_packed x) = x) := by
  refine ⟨?_, ?_, ?_, ?_, ?_, ?_, ?_, ?_, ?_⟩
  · exact fun p f w off h1 h2 h3 => single_round_trip h1 h2 h3
  · exact fun p w off h1 h2 h3 => single_from_packed_eq h1 h2 h3
  · exact fun p f w off i h1 h2 h3 hi =>
      single_to_packed_testBit_inside h1 h2 h3 hi
  · exact fun p f w off j h2 h3 hj64 hj =>
      single_to_packed_testBit_outside h2 h3 hj64 hj
  · exact fun x h1 h2 h3 h4 h5 h6 h7 h8 h9 =>
      war_round_trip x h1 h2 h3 h4 h5 h6 h7 h8 h9
  · exact fun x h1 h2 h3 h4 h5 h6 h7 h8 h9 =>
      rar_round_trip x h1 h2 h3 h4 h5 h6 h7 h8 h9
  · exact fun x h1 h2 => wresp_round_trip x h1 h2
  · exact fun x h1 h2 h3 h4 => wdata_round_trip x h1 h2 h3 h4
  · exact fun x h1 h2 h3 h4 => rdata_round_trip x h1 h2 h3 h4

/-- Witness for C1 at concrete inputs: the helper round trip at
`p = 7, f = 41, w = 5, off = 3`, and the `WriteAddressRequest` round trip at
a concrete request. -/
theorem claim_C1_witness :
    single_from_packed (single_to_packed 7 41 5 3) 5 3 = 41 % 2 ^ 5 ∧
    WriteAddressRequest.from_packed
        (WriteAddressRequest.to_packed
          { id := 3, addr := 70000, burst_len := 255, burst_size := 7,
            burst_type := 2, lock_type := 1, mem_type := 12, prot := 9,
            qos := 5 }) =
      { id := 3, addr := 70000, burst_len := 255, burst_size := 7,
        burst_type := 2, lock_type := 1, mem_type := 12, prot := 9,
        qos := 5 } :=
  ⟨claim_C1.1 7 41 5 3 (by decide) (by decide) (by decide),
   claim_C1.2.2.2.2.1 _ (by decide) (by decide) (by decide) (by decide)
     (by decide) (by decide) (by decide) (by decide) (by decide)⟩

/-- C2: the claim that the write_only_nocontent `to_packed`/`from_packed`
pair restores every field is false on the code: at the `WriteAddressRequest`
with `id = 1` and all other fields `0` (every field fits its declared width),
the round trip returns `id = 0`, and at the `WriteResponse` with `id = 1` and
`content = 0` the round trip also returns `id = 0` (the `id` branch of
`WriteResponse::to_packed` is skipped by the inverted guard `if (!id_width)`,
`to_packed` clears all other fields via `packed &= low_mask << offset`, and
the mask `(1UL << (PackedWidth - 1)) >> (PackedWidth - width)` is the single
bit `2 ^ (width - 1)` rather than the low `width` bits). -/
theorem claim_C2 :
    (NoContent.WriteAddressRequest.from_packed
        { id := 1, addr := 0, burst_length := 0, burst_size := 0,
          burst_type := 0, lock_type := 0, memory_type := 0,
          protection_type := 0, qos := 0 }
        (NoContent.WriteAddressRequest.to_packed
          { id := 1, addr := 0, burst_length := 0, burst_size := 0,
            burst_type := 0, lock_type := 0, memory_type := 0,
            protection_type := 0, qos := 0 })).id = 0 ∧
    (NoContent.WriteResponse.from_packed { id := 1, content := 0 }
        (NoContent.WriteResponse.to_packed { id := 1, content := 0 })).id =
      0 ∧
    NoContent.WriteAddressRequest.from_packed
        { id := 1, addr := 0, burst_length := 0, burst_size := 0,
          burst_type := 0, lock_type := 0, memory_type := 0,
          protection_type := 0, qos := 0 }
        (NoContent.WriteAddressRequest.to_packed
          { id := 1, addr := 0, burst_length := 0, burst_size := 0,
            burst_type := 0, lock_type := 0, memory_type := 0,
            protection_type := 0, qos := 0 }) ≠
      { id := 1, addr := 0, burst_length := 0, burst_size := 0,
        burst_type := 0, lock_type := 0, memory_type := 0,
        protection_type := 0, qos := 0 } := by
  refine ⟨by decide, by decide, by decide⟩

/-- C3: for the `RealMemoryController` per-identifier queue maps (with the
`std::map` invariant that keys are strictly sorted):
`has_wresp_to_input` (resp. `has_rdata_to_input`) is true iff some queue is
non-empty; when the queue at the lowest identifier among non-empty queues is
`q`, `get_next_wresp` returns `q`'s front (the functional embedding reads the
state without modifying it) and `pop_next_wresp` removes exactly that element
and leaves every other queue unchanged; the `assert(false)` fall-through
(`none`) is avoided exactly when some queue is non-empty; and the analogous
statements hold for the read-data side and for the write_only_nocontent
variant's controller. -/
theorem claim_C3 :
    (∀ c : RealMemoryController,
      (c.has_wresp_to_input = true ↔ ∃ e ∈ c.wresp_out_queues, e.2 ≠ []) ∧
      (c.has_rdata_to_input = true ↔ ∃ e ∈ c.rdata_out_queues, e.2 ≠ []) ∧
      c.get_next_wresp.isSome = c.has_wresp_to_input ∧
      c.pop_next_wresp.isSome = c.has_wresp_to_input ∧
      c.get_next_rdata.isSome = c.has_rdata_to_input ∧
      c.pop_next_rdata.isSome = c.has_rdata_to_input) ∧
    (∀ (c : RealMemoryController) (k : Nat) (q : List WriteResponse),
      keysSorted c.wresp_out_queues → (k, q) ∈ c.wresp_out_queues → q ≠ [] →
      (∀ e ∈ c.wresp_out_queues, e.2 ≠ [] → k ≤ e.1) →
      c.get_next_wresp = q.head? ∧
      c.pop_next_wresp =
        some { c with
          wresp_out_queues := setQueue c.wresp_out_queues k q.tail }) ∧
    (∀ (c : RealMemoryController) (k : Nat) (q : List ReadData),
      keysSorted c.rdata_out_queues → (k, q) ∈ c.rdata_out_queues → q ≠ [] →
      (∀ e ∈ c.rdata_out_queues, e.2 ≠ [] → k ≤ e.1) →
      c.get_next_rdata = q.head? ∧
      c.pop_next_rdata =
        some { c with
          rdata_out_queues := setQueue c.rdata_out_queues k q.tail }) ∧
    (∀ c : NCRealMemoryController,
      (c.has_wrsp_to_input = true ↔ ∃ e ∈ c.wrsp_out_queues, e.2 ≠ []) ∧
      c.get_next_wresp.isSome = c.has_wrsp_to_input ∧
      c.pop_next_wresp.isSome = c.has_wrsp_to_input) ∧
    (∀ (c : NCRealMemoryController) (k : Nat) (q : List WriteResponse),
      keysSorted c.wrsp_out_queues → (k, q) ∈ c.wrsp_out_queues → q ≠ [] →
      (∀ e ∈ c.wrsp_out_queues, e.2 ≠ [] → k ≤ e.1) →
      c.get_next_wresp = q.head? ∧
      c.pop_next_wresp =
        some { wrsp_out_queues := setQueue c.wrsp_out_queues k q.tail }) := by
  refine ⟨?_, ?_, ?_, ?_, ?_⟩
  · intro c
    refine ⟨mapHasAny_iff _, mapHasAny_iff _, mapGetFirst_isSome _, ?_, ?_, ?_⟩
    · simp [RealMemoryController.pop_next_wresp,
        RealMemoryController.has_wresp_to_input, mapPopFirst_isSome]
    · exact mapGetFirst_isSome _
    · simp [RealMemoryController.pop_next_rdata,
        RealMemoryController.has_rdata_to_input, mapPopFirst_isSome]
  · intro c k q hs hin hq hmin
    refine ⟨mapGetFirst_min _ k q hs hin hq
      (fun k1 q1 h1 h2 => hmin (k1, q1) h1 h2), ?_⟩
    unfold RealMemoryController.pop_next_wresp
    rw [mapPopFirst_min _ k q hs hin hq (fun k1 q1 h1 h2 => hmin (k1, q1) h1 h2)]
    rfl
  · intro c k q hs hin hq hmin
    refine ⟨mapGetFirst_min _ k q hs hin hq
      (fun k1 q1 h1 h2 => hmin (k1, q1) h1 h2), ?_⟩
    unfold RealMemoryController.pop_next_rdata
    rw [mapPopFirst_min _ k q hs hin hq (fun k1 q1 h1 h2 => hmin (k1, q1) h1 h2)]
    rfl
  · intro c
    refine ⟨mapHasAny_iff _, mapGetFirst_isSome _, ?_⟩
    simp [NCRealMemoryController.pop_next_wresp,
      NCRealMemoryController.has_wrsp_to_input, mapPopFirst_isSome]
  · intro c k q hs hin hq hmin
    refine ⟨mapGetFirst_min _ k q hs hin hq
      (fun k1 q1 h1 h2 => hmin (k1, q1) h1 h2), ?_⟩
    unfold NCRealMemoryController.pop_next_wresp
    rw [mapPopFirst_min _ k q hs hin hq (fun k1 q1 h1 h2 => hmin (k1, q1) h1 h2)]
    rfl

/-- Witness for C3 at a concrete controller whose identifier-0 queue is empty
and whose identifier-1 and identifier-2 queues are non-empty: the next write
response is the front of the identifier-1 queue and popping removes exactly
it. -/
theorem claim_C3_witness :
    RealMemoryController.get_next_wresp
        { spare_wdata_cnt := 0,
          wresp_out_queues :=
            [(0, []), (1, [{ id := 1, rsp := 7 }]),
              (2, [{ id := 2, rsp := 9 }])],
          releasable_wresp_counts := [], wids_expecting_data := [],
          rdata_out_queues := [] } =
      ([{ id := 1, rsp := 7 }] : List WriteResponse).head? ∧
    RealMemoryController.pop_next_wresp
        { spare_wdata_cnt := 0,
          wresp_out_queues :=
            [(0, []), (1, [{ id := 1, rsp := 7 }]),
              (2, [{ id := 2, rsp := 9 }])],
          releasable_wresp_counts := [], wids_expecting_data := [],
          rdata_out_queues := [] } =
      some ({ spare_wdata_cnt := 0,
              wresp_out_queues :=
                setQueue
                  [(0, []), (1, [{ id := 1, rsp := 7 }]),
                    (2, [{ id := 2, rsp := 9 }])] 1
                  ([{ id := 1, rsp := 7 }] : List WriteResponse).tail,
              releasable_wresp_counts := [], wids_expecting_data := [],
              rdata_out_queues := [] } : RealMemoryController) :=
  claim_C3.2.1
    { spare_wdata_cnt := 0,
      wresp_out_queues :=
        [(0, []), (1, [{ id := 1, rsp := 7 }]), (2, [{ id := 2, rsp := 9 }])],
      releasable_wresp_counts := [], wids_expecting_data := [],
      rdata_out_queues := [] }
    1 [{ id := 1, rsp := 7 }] (by decide) (by decide) (by decide) (by decide)

/-- C4: for every read address whose identifier is a key of the (sorted)
queue map, `accept_raddr` appends exactly `burst_len` read data elements to
that identifier's queue, in order `i = 0 .. burst_len - 1`, the `i`-th having
`id = raddr.id`, `data = raddr.addr + i` (`uint64_t` addition, here below the
wrap bound), `rsp = 0` and `last` set iff `i = burst_len - 1`; every other
queue and every other field of the controller is unchanged, and for
`burst_len = 0` the controller is unchanged. -/
theorem claim_C4 :
    (∀ (c : RealMemoryController) (raddr : ReadAddressRequest),
      raddr.burst_len = 0 → c.accept_raddr raddr = c) ∧
    (∀ (c : RealMemoryController) (raddr : ReadAddressRequest)
        (q : List ReadData),
      keysSorted c.rdata_out_queues →
      (raddr.id, q) ∈ c.rdata_out_queues →
      raddr.addr + raddr.burst_len ≤ 2 ^ 64 →
      (c.accept_raddr raddr).rdata_out_queues =
        setQueue c.rdata_out_queues raddr.id
          (q ++ (List.range raddr.burst_len).map (fun i =>
            ({ id := raddr.id, data := raddr.addr + i, rsp := 0,
               last := if i = raddr.burst_len - 1 then 1 else 0 } :
              ReadData))) ∧
      (c.accept_raddr raddr).spare_wdata_cnt = c.spare_wdata_cnt ∧
      (c.accept_raddr raddr).wresp_out_queues = c.wresp_out_queues ∧
      (c.accept_raddr raddr).releasable_wresp_counts =
        c.releasable_wresp_counts ∧
      (c.accept_raddr raddr).wids_expecting_data = c.wids_expecting_data) := by
  constructor
  · intro c raddr h
    simp [RealMemoryController.accept_raddr, h, acceptRaddrLoop]
  · intro c raddr q hs hin hfit
    refine ⟨?_, rfl, rfl, rfl, rfl⟩
    have hlist : (List.range raddr.burst_len).map (mkReadData raddr) =
        (List.range raddr.burst_len).map (fun i =>
          ({ id := raddr.id, data := raddr.addr + i, rsp := 0,
             last := if i = raddr.burst_len - 1 then 1 else 0 } :
            ReadData)) := by
      apply List.map_congr_left
      intro i hi
      have hi1 : i < raddr.burst_len := List.mem_range.mp hi
      unfold mkReadData
      have : (raddr.addr + i) % 2 ^ 64 = raddr.addr + i :=
        Nat.mod_eq_of_lt (by omega)
      rw [this]
    show acceptRaddrLoop c.rdata_out_queues raddr raddr.burst_len = _
    rw [acceptRaddrLoop_eq hs hin, hlist]

/-- Witness for C4: a two-beat read burst at address 100 for identifier 1
appends the two read data beats to the identifier-1 queue. -/
theorem claim_C4_witness :
    (RealMemoryController.accept_raddr
        { spare_wdata_cnt := 0, wresp_out_queues := [],
          releasable_wresp_counts := [], wids_expecting_data := [],
          rdata_out_queues := [(0, []), (1, [])] }
        { id := 1, addr := 100, burst_len := 2, burst_size := 0,
          burst_type := 0, lock_type := 0, mem_type := 0, prot := 0,
          qos := 0 }).rdata_out_queues =
      setQueue [(0, []), (1, [])] 1
        (([] : List ReadData) ++ (List.range 2).map (fun i =>
          ({ id := 1, data := 100 + i, rsp := 0,
             last := if i = 2 - 1 then 1 else 0 } : ReadData))) ∧
    (RealMemoryController.accept_raddr
        { spare_wdata_cnt := 0, wresp_out_queues := [],
          releasable_wresp_counts := [], wids_expecting_data := [],
          rdata_out_queues := [(0, []), (1, [])] }
        { id := 1, addr := 100, burst_len := 2, burst_size := 0,
          burst_type := 0, lock_type := 0, mem_type := 0, prot := 0,
          qos := 0 }).spare_wdata_cnt = 0 ∧
    (RealMemoryController.accept_raddr
        { spare_wdata_cnt := 0, wresp_out_queues := [],
          releasable_wresp_counts := [], wids_expecting_data := [],
          rdata_out_queues := [(0, []), (1, [])] }
        { id := 1, addr := 100, burst_len := 2, burst_size := 0,
          burst_type := 0, lock_type := 0, mem_type := 0, prot := 0,
          qos := 0 }).wresp_out_queues = [] ∧
    (RealMemoryController.accept_raddr
        { spare_wdata_cnt := 0, wresp_out_queues := [],
          releasable_wresp_counts := [], wids_expecting_data := [],
          rdata_out_queues := [(0, []), (1, [])] }
        { id := 1, addr := 100, burst_len := 2, burst_size := 0,
          burst_type := 0, lock_type := 0, mem_type := 0, prot := 0,
          qos := 0 }).releasable_wresp_counts = [] ∧
    (RealMemoryController.accept_raddr
        { spare_wdata_cnt := 0, wresp_out_queues := [],
          releasable_wresp_counts := [], wids_expecting_data := [],
          rdata_out_queues := [(0, []), (1, [])] }
        { id := 1, addr := 100, burst_len := 2, burst_size := 0,
          burst_type := 0, lock_type := 0, mem_type := 0, prot := 0,
          qos := 0 }).wids_expecting_data = [] :=
  claim_C4.2
    { spare_wdata_cnt := 0, wresp_out_queues := [],
      releasable_wresp_counts := [], wids_expecting_data := [],
      rdata_out_queues := [(0, []), (1, [])] }
    { id := 1, addr := 100, burst_len := 2, burst_size := 0,
      burst_type := 0, lock_type := 0, mem_type := 0, prot := 0, qos := 0 }
    [] (by decide) (by decide) (by decide)

/-- The delay loop is FIFO pairing: it reports exactly the zipped pairs. -/
lemma delaysForId_eq_zip (qin : List (Nat × WriteAddressRequest))
    (qout : List (Nat × WriteResponse)) :
    delaysForId qin qout =
      (List.zip qin qout).map (fun e => sub64 e.2.1 e.1.1) := by
  induction qin generalizing qout with
  | nil => cases qout <;> simp [delaysForId]
  | cons a ins ih =>
    cases qout with
    | nil => simp [delaysForId]
    | cons b outs =>
      obtain ⟨tin, reqa⟩ := a
      obtain ⟨tout, resb⟩ := b
      simp [delaysForId, ih]

/-- C5: the response-time report loop pairs, per identifier `0 ≤ id < n` and
in FIFO order, the k-th accepted write address (timestamp `in_time`) with the
k-th delivered write response (timestamp `out_time`) and reports the `size_t`
difference `out_time - in_time` for that pair; pairing for an identifier
stops as soon as either queue is exhausted (the number of reported delays is
the minimum of the two queue lengths), and leftover entries are not
reported. -/
theorem claim_C5 :
    (∀ (qin : List (Nat × WriteAddressRequest))
        (qout : List (Nat × WriteResponse)),
      delaysForId qin qout =
        (List.zip qin qout).map (fun e => sub64 e.2.1 e.1.1)) ∧
    (∀ (qin : List (Nat × WriteAddressRequest))
        (qout : List (Nat × WriteResponse)),
      (delaysForId qin qout).length = min qin.length qout.length) ∧
    (∀ (n : Nat) (win : List (Nat × List (Nat × WriteAddressRequest)))
        (wout : List (Nat × List (Nat × WriteResponse))) (k : Nat), k < n →
      (responseTimeReport n win wout)[k]? =
        some ((List.zip (lookupQ win k) (lookupQ wout k)).map
          (fun e => sub64 e.2.1 e.1.1))) := by
  refine ⟨delaysForId_eq_zip, ?_, ?_⟩
  · intro qin qout
    rw [delaysForId_eq_zip]
    simp
  · intro n win wout k hk
    unfold responseTimeReport
    rw [List.getElem?_map, List.getElem?_range hk]
    simp [delaysForId_eq_zip]

/-- Witness for C5: the report at identifier 0 of a two-identifier run with
one accepted write address (timestamp 3) and two delivered write responses
(timestamps 10 and 11): one pair is reported. -/
theorem claim_C5_witness :
    (responseTimeReport 2
        [(0, [(3, (⟨0, 0, 0, 0, 0, 0, 0, 0, 0⟩ : WriteAddressRequest))]),
          (1, [])]
        [(0, [(10, (⟨0, 0⟩ : WriteResponse)),
              (11, (⟨0, 1⟩ : WriteResponse))]),
          (1, [])])[0]? =
      some ((List.zip
          (lookupQ
            [(0, [(3, (⟨0, 0, 0, 0, 0, 0, 0, 0, 0⟩ : WriteAddressRequest))]),
              (1, [])] 0)
          (lookupQ
            [(0, [(10, (⟨0, 0⟩ : WriteResponse)),
                  (11, (⟨0, 1⟩ : WriteResponse))]),
              (1, [])] 0)).map
        (fun e => sub64 e.2.1 e.1.1)) :=
  claim_C5.2.2 2
    [(0, [(3, (⟨0, 0, 0, 0, 0, 0, 0, 0, 0⟩ : WriteAddressRequest))]),
      (1, [])]
    [(0, [(10, (⟨0, 0⟩ : WriteResponse)), (11, (⟨0, 1⟩ : WriteResponse))]),
      (1, [])]
    0 (by decide)

/-- The mismatch loop counts exactly the unequal FIFO pairs. -/
lemma countMismatches_eq_filter (qin qout : List Nat) :
    countMismatches qin qout =
      ((List.zip qin qout).filter (fun e => decide (e.1 ≠ e.2))).length := by
  induction qin generalizing qout with
  | nil => cases qout <;> simp [countMismatches]
  | cons a ins ih =>
    cases qout with
    | nil => simp [countMismatches]
    | cons b outs =>
      by_cases h : a = b <;>
        simp [countMismatches, h, ih, Nat.add_comm]

lemma countMismatches_eq_zero_iff (qin qout : List Nat) :
    countMismatches qin qout = 0 ↔ ∀ e ∈ List.zip qin qout, e.1 = e.2 := by
  rw [countMismatches_eq_filter]
  simp [List.length_eq_zero, List.filter_eq_nil_iff]

lemma natSum_eq_zero_iff (l : List Nat) : l.sum = 0 ↔ ∀ x ∈ l, x = 0 := by
  induction l with
  | nil => simp
  | cons a t ih => simp [List.sum_cons, Nat.add_eq_zero, ih]

/-- C6: the scoreboard mismatch counts are the number of positions at which
FIFO-paired inputs and outputs differ: per identifier, the i-th value of the
input queue is compared with the i-th value of the output queue up to the
shorter length, the result is the number of unequal pairs (summed over
identifiers `0 ≤ i < n` in the multi-identifier test), and the count is zero
iff every paired prefix agrees. -/
theorem claim_C6 :
    (∀ qin qout : List Nat,
      countMismatches qin qout =
        ((List.zip qin qout).filter (fun e => decide (e.1 ≠ e.2))).length) ∧
    (∀ qin qout : List Nat,
      countMismatches qin qout = 0 ↔ ∀ e ∈ List.zip qin qout, e.1 = e.2) ∧
    (∀ (n : Nat) (qin qout : List (Nat × List Nat)),
      multipleIdsMismatches n qin qout =
        ((List.range n).map (fun i =>
          ((List.zip (lookupQ qin i) (lookupQ qout i)).filter
            (fun e => decide (e.1 ≠ e.2))).length)).sum) ∧
    (∀ (n : Nat) (qin qout : List (Nat × List Nat)),
      multipleIdsMismatches n qin qout = 0 ↔
        ∀ i < n, ∀ e ∈ List.zip (lookupQ qin i) (lookupQ qout i),
          e.1 = e.2) := by
  refine ⟨countMismatches_eq_filter, countMismatches_eq_zero_iff, ?_, ?_⟩
  · intro n qin qout
    unfold multipleIdsMismatches
    congr 1
    apply List.map_congr_left
    intro i _
    exact countMismatches_eq_filter _ _
  · intro n qin qout
    unfold multipleIdsMismatches
    rw [natSum_eq_zero_iff]
    constructor
    · intro h i hi e he
      have := h (countMismatches (lookupQ qin i) (lookupQ qout i))
        (List.mem_map_of_mem _ (List.mem_range.mpr hi))
      exact (countMismatches_eq_zero_iff _ _).mp this e he
    · intro h x hx
      rcases List.mem_map.mp hx with ⟨i, hi, rfl⟩
      exact (countMismatches_eq_zero_iff _ _).mpr
        (h i (List.mem_range.mp hi))

/-- Witness for C6: concrete queues with exactly one mismatching FIFO pair. -/
theorem claim_C6_witness :
    countMismatches [1, 2, 3] [1, 5, 3, 9] =
      ((List.zip [1, 2, 3] [1, 5, 3, 9]).filter
        (fun e => decide (e.1 ≠ e.2))).length :=
  claim_C6.1 [1, 2, 3] [1, 5, 3, 9]

/-- C7: for every `n ≥ 0`, a call to the clock driver `simmem_tick n` (from a
state where `clk_i = 0`, as established at construction and after every
previous tick) performs exactly `n` cycles: the tick counter increases by
exactly `n`, each cycle drives `clk_i` through `0, 1, 0` with a DUT
evaluation after each assignment (the DUT state is the `n`-fold iterate of
`eval 0 ∘ eval 1 ∘ eval 0`), `clk_i` is `0` afterwards, and no testbench
state other than `tick_count_`, `clk_i`, the DUT evaluation state and the
trace changes. -/
theorem claim_C7 : ∀ (σ : Type) (ev : Nat → σ → σ) (n : Nat)
    (tb : SimmemTestbench σ), tb.clk_i = 0 →
    (simmem_tick ev n tb).tick_count = tb.tick_count + n ∧
    (simmem_tick ev n tb).clk_i = 0 ∧
    (simmem_tick ev n tb).trailing_clock_cycles =
      tb.trailing_clock_cycles ∧
    (simmem_tick ev n tb).record_trace = tb.record_trace ∧
    (simmem_tick ev n tb).dut = (fun d => ev 0 (ev 1 (ev 0 d)))^[n] tb.dut := by
  intro σ ev n
  induction n with
  | zero =>
    intro tb h
    simpa [simmem_tick] using h
  | succ n ih =>
    intro tb h
    have h1 := ih (tickOnce ev tb) rfl
    refine ⟨?_, h1.2.1, ?_, ?_, ?_⟩
    · rw [show simmem_tick ev (n + 1) tb = simmem_tick ev n (tickOnce ev tb)
        from rfl, h1.1]
      simp [tickOnce]
      omega
    · rw [show simmem_tick ev (n + 1) tb = simmem_tick ev n (tickOnce ev tb)
        from rfl, h1.2.2.1]
      rfl
    · rw [show simmem_tick ev (n + 1) tb = simmem_tick ev n (tickOnce ev tb)
        from rfl, h1.2.2.2.1]
      rfl
    · rw [show simmem_tick ev (n + 1) tb = simmem_tick ev n (tickOnce ev tb)
        from rfl, h1.2.2.2.2]
      rw [show (tickOnce ev tb).dut = ev 0 (ev 1 (ev 0 tb.dut)) from rfl]
      rw [← Function.iterate_succ_apply]

/-- Witness for C7: two ticks of a concrete testbench over a numeric DUT
state. -/
theorem claim_C7_witness :
    (simmem_tick (fun c d => 2 * d + c) 2
        { tick_count := 5, trailing_clock_cycles := 0, record_trace := false,
          clk_i := 0, dut := 1, trace := [] }).tick_count = 5 + 2 ∧
    (simmem_tick (fun c d => 2 * d + c) 2
        { tick_count := 5, trailing_clock_cycles := 0, record_trace := false,
          clk_i := 0, dut := 1, trace := [] }).clk_i = 0 ∧
    (simmem_tick (fun c d => 2 * d + c) 2
        { tick_count := 5, trailing_clock_cycles := 0, record_trace := false,
          clk_i := 0, dut := 1, trace := [] }).trailing_clock_cycles = 0 ∧
    (simmem_tick (fun c d => 2 * d + c) 2
        { tick_count := 5, trailing_clock_cycles := 0, record_trace := false,
          clk_i := 0, dut := 1, trace := [] }).record_trace = false ∧
    (simmem_tick (fun c d => 2 * d + c) 2
        { tick_count := 5, trailing_clock_cycles := 0, record_trace := false,
          clk_i := 0, dut := 1, trace := [] }).dut =
      (fun d => (fun c d => 2 * d + c) 0 ((fun c d => 2 * d + c) 1
        ((fun c d => 2 * d + c) 0 d)))^[2] 1 :=
  claim_C7 Nat (fun c d => 2 * d + c) 2
    { tick_count := 5, trailing_clock_cycles := 0, record_trace := false,
      clk_i := 0, dut := 1, trace := [] } rfl

/-! ### Counter-map lemmas for `accept_wdata` -/

lemma lookupCnt_eq_zero {m : List (Nat × Nat)} {k : Nat}
    (h : ∀ e ∈ m, e.1 ≠ k) : lookupCnt m k = 0 := by
  induction m with
  | nil => rfl
  | cons hd tl ih =>
    have hhd : hd.1 ≠ k := h hd (List.mem_cons_self _ _)
    obtain ⟨k0, v⟩ := hd
    have : ¬ k = k0 := fun hh => hhd (by simp [hh])
    simp only [lookupCnt, if_neg this]
    exact ih (fun e he => h e (List.mem_cons_of_mem _ he))

lemma lookupCnt_bumpCount_self {m : List (Nat × Nat)} (hs : keysSorted m)
    (k : Nat) : lookupCnt (bumpCount m k) k = lookupCnt m k + 1 := by
  induction m with
  | nil => simp [bumpCount, lookupCnt]
  | cons hd tl ih =>
    obtain ⟨k0, v⟩ := hd
    have hpair := List.pairwise_cons.mp hs
    by_cases h : k = k0
    · simp [bumpCount, lookupCnt, h]
    · by_cases h2 : k < k0
      · have htl : lookupCnt tl k = 0 :=
          lookupCnt_eq_zero (fun e he => by
            have : k0 < e.1 := hpair.1 e he
            omega)
        simp [bumpCount, lookupCnt, h, h2, htl]
      · simp [bumpCount, lookupCnt, h, h2, ih hpair.2]

lemma lookupCnt_bumpCount_other {m : List (Nat × Nat)} {k k1 : Nat}
    (hne : k1 ≠ k) : lookupCnt (bumpCount m k) k1 = lookupCnt m k1 := by
  induction m with
  | nil => simp [bumpCount, lookupCnt, hne]
  | cons hd tl ih =>
    obtain ⟨k0, v⟩ := hd
    by_cases h : k = k0
    · have h1 : ¬ k1 = k0 := by omega
      simp [bumpCount, lookupCnt, h, h1]
    · by_cases h2 : k < k0
      · simp [bumpCount, lookupCnt, h, h2, hne]
      · by_cases h3 : k1 = k0 <;> simp [bumpCount, lookupCnt, h, h2, h3, ih]

/-- C8: `accept_wdata` unconditionally reads `wids_expecting_data.front()`,
so its error branch (`none` in the total embedding) is unreachable iff the
queue of identifiers awaiting data is non-empty; under that precondition it
increments `spare_wdata_cnt`, and exactly when the incremented count reaches
the front entry's burst length it increments that entry's identifier's
releasable-response count, subtracts the burst length, and pops the front
entry; the per-identifier response and data queues are untouched either
way. -/
theorem claim_C8 : ∀ (c : RealMemoryController) (wdata : WriteData),
    ((c.accept_wdata wdata).isSome ↔ c.wids_expecting_data ≠ []) ∧
    (∀ wid blen rest,
      c.wids_expecting_data = (wid, blen) :: rest →
      keysSorted c.releasable_wresp_counts →
      ∃ c1, c.accept_wdata wdata = some c1 ∧
        c1.wresp_out_queues = c.wresp_out_queues ∧
        c1.rdata_out_queues = c.rdata_out_queues ∧
        (blen ≤ c.spare_wdata_cnt + 1 →
          c1.spare_wdata_cnt = c.spare_wdata_cnt + 1 - blen ∧
          lookupCnt c1.releasable_wresp_counts wid =
            lookupCnt c.releasable_wresp_counts wid + 1 ∧
          (∀ k1, k1 ≠ wid →
            lookupCnt c1.releasable_wresp_counts k1 =
              lookupCnt c.releasable_wresp_counts k1) ∧
          c1.wids_expecting_data = rest) ∧
        (c.spare_wdata_cnt + 1 < blen →
          c1.spare_wdata_cnt = c.spare_wdata_cnt + 1 ∧
          c1.releasable_wresp_counts = c.releasable_wresp_counts ∧
          c1.wids_expecting_data = c.wids_expecting_data)) := by
  intro c wdata
  constructor
  · rcases hw : c.wids_expecting_data with _ | ⟨⟨wid, blen⟩, rest⟩
    · simp [RealMemoryController.accept_wdata, hw]
    · simp only [RealMemoryController.accept_wdata, hw]
      constructor
      · intro _
        simp
      · intro _
        split <;> simp
  · intro wid blen rest hw hs
    by_cases hc : blen ≤ c.spare_wdata_cnt + 1
    · refine ⟨{ c with
                spare_wdata_cnt := c.spare_wdata_cnt + 1 - blen,
                releasable_wresp_counts :=
                  bumpCount c.releasable_wresp_counts wid,
                wids_expecting_data := rest }, ?_, rfl, rfl, ?_, ?_⟩
      · simp [RealMemoryController.accept_wdata, hw, hc]
      · intro _
        exact ⟨rfl, lookupCnt_bumpCount_self hs wid,
          fun k1 hk1 => lookupCnt_bumpCount_other hk1, rfl⟩
      · intro hlt
        omega
    · refine ⟨{ c with spare_wdata_cnt := c.spare_wdata_cnt + 1 }, ?_, rfl,
        rfl, ?_, ?_⟩
      · simp [RealMemoryController.accept_wdata, hw, hc]
      · intro hle
        omega
      · intro _
        exact ⟨rfl, rfl, rfl⟩

/-- Witness for C8: a controller whose front expecting-data entry is
identifier 2 with burst length 1 and spare count 0: accepting one write data
beat releases one response for identifier 2 and pops the entry. -/
theorem claim_C8_witness :
    ((RealMemoryController.accept_wdata
        { spare_wdata_cnt := 0, wresp_out_queues := [],
          releasable_wresp_counts := [(1, 5), (2, 0)],
          wids_expecting_data := [(2, 1)],
          rdata_out_queues := [] }
        { id := 0, data := 0, strb := 0, last := 0 }).isSome ↔
      ([(2, 1)] : List (Nat × Nat)) ≠ []) ∧
    (∃ c1, RealMemoryController.accept_wdata
        { spare_wdata_cnt := 0, wresp_out_queues := [],
          releasable_wresp_counts := [(1, 5), (2, 0)],
          wids_expecting_data := [(2, 1)],
          rdata_out_queues := [] }
        { id := 0, data := 0, strb := 0, last := 0 } = some c1 ∧
      c1.wresp_out_queues = [] ∧
      c1.rdata_out_queues = [] ∧
      (1 ≤ 0 + 1 →
        c1.spare_wdata_cnt = 0 + 1 - 1 ∧
        lookupCnt c1.releasable_wresp_counts 2 =
          lookupCnt [(1, 5), (2, 0)] 2 + 1 ∧
        (∀ k1, k1 ≠ 2 →
          lookupCnt c1.releasable_wresp_counts k1 =
            lookupCnt [(1, 5), (2, 0)] k1) ∧
        c1.wids_expecting_data = []) ∧
      (0 + 1 < 1 →
        c1.spare_wdata_cnt = 0 + 1 ∧
        c1.releasable_wresp_counts = [(1, 5), (2, 0)] ∧
        c1.wids_expecting_data = [(2, 1)])) := by
  have h := claim_C8
    { spare_wdata_cnt := 0, wresp_out_queues := [],
      releasable_wresp_counts := [(1, 5), (2, 0)],
      wids_expecting_data := [(2, 1)], rdata_out_queues := [] }
    { id := 0, data := 0, strb := 0, last := 0 }
  exact ⟨h.1, h.2 2 1 [] (by decide) (by decide)⟩

/-- C9: the reference write response is a deterministic function of the
request preserving the transaction identifier: for every write address whose
identifier is a key of the (sorted) queue map, `accept_waddr` (and `add_waddr`
of the write-only variant) appends to the queue keyed by `waddr.id` exactly
one `WriteResponse` with `id = waddr.id` and
`rsp = (waddr.to_packed() >> IDWidth) & (2 ^ (XRespWidth - 1) - 1)` — the low
`XRespWidth - 1 = 9` bits (one fewer than the declared `XRespWidth = 10`) of
the packed request after dropping the identifier bits — leaving all other
queues unchanged. -/
theorem claim_C9 :
    wrespLowMask = 2 ^ (XRespWidth - 1) - 1 ∧
    (∀ (c : RealMemoryController) (waddr : WriteAddressRequest)
        (q : List WriteResponse),
      keysSorted c.wresp_out_queues → (waddr.id, q) ∈ c.wresp_out_queues →
      (c.accept_waddr waddr).wresp_out_queues =
        setQueue c.wresp_out_queues waddr.id
          (q ++ [{ id := waddr.id,
                   rsp := (waddr.to_packed >>> IDWidth) &&&
                     (2 ^ (XRespWidth - 1) - 1) }])) ∧
    (∀ (c : NCRealMemoryController) (waddr : WriteAddressRequest)
        (q : List WriteResponse),
      keysSorted c.wrsp_out_queues → (waddr.id, q) ∈ c.wrsp_out_queues →
      c.add_waddr waddr =
        { wrsp_out_queues :=
            setQueue c.wrsp_out_queues waddr.id
              (q ++ [{ id := waddr.id,
                       rsp := (waddr.to_packed >>> IDWidth) &&&
                         (2 ^ (XRespWidth - 1) - 1) }]) }) := by
  have hmask : wrespLowMask = 2 ^ (XRespWidth - 1) - 1 := by decide
  refine ⟨hmask, ?_, ?_⟩
  · intro c waddr q hs hin
    have h1 : (c.accept_waddr waddr).wresp_out_queues =
        mapPush c.wresp_out_queues waddr.id
          { id := waddr.id,
            rsp := (waddr.to_packed >>> WriteAddressRequest.id_w) &&&
              wrespLowMask } := by
      by_cases hb : waddr.burst_len ≤ c.spare_wdata_cnt <;>
        simp [RealMemoryController.accept_waddr, hb]
    rw [h1, mapPush_present hs hin, hmask]
    rfl
  · intro c waddr q hs hin
    unfold NCRealMemoryController.add_waddr
    rw [mapPush_present hs hin, hmask]
    rfl

/-- Witness for C9: an accepted write address with identifier 1 appends one
response with the low nine bits of the shifted packed request to the
identifier-1 queue. -/
theorem claim_C9_witness :
    (RealMemoryController.accept_waddr
        { spare_wdata_cnt := 0, wresp_out_queues := [(1, []), (2, [])],
          releasable_wresp_counts := [], wids_expecting_data := [],
          rdata_out_queues := [] }
        { id := 1, addr := 12345, burst_len := 3, burst_size := 2,
          burst_type := 1, lock_type := 0, mem_type := 0, prot := 0,
          qos := 0 }).wresp_out_queues =
      setQueue [(1, []), (2, [])] 1
        (([] : List WriteResponse) ++
          [{ id := 1,
             rsp := (WriteAddressRequest.to_packed
                 { id := 1, addr := 12345, burst_len := 3, burst_size := 2,
                   burst_type := 1, lock_type := 0, mem_type := 0, prot := 0,
                   qos := 0 } >>> IDWidth) &&&
               (2 ^ (XRespWidth - 1) - 1) }]) :=
  claim_C9.2.1
    { spare_wdata_cnt := 0, wresp_out_queues := [(1, []), (2, [])],
      releasable_wresp_counts := [], wids_expecting_data := [],
      rdata_out_queues := [] }
    { id := 1, addr := 12345, burst_len := 3, burst_size := 2,
      burst_type := 1, lock_type := 0, mem_type := 0, prot := 0, qos := 0 }
    [] (by decide) (by decide)

/-- C10: with `kIdWidth = 4`, the constructor computes
`identifier_mask_ = (1 << 31) >> (31 - kIdWidth) = 0xFFFFFFF0` (all bits set
except the low `kIdWidth`); for every identifier `id < 2 ^ kIdWidth` and
every 32-bit value `r`, the generated input word
`id | (r & identifier_mask_)` has its low `kIdWidth` bits equal to `id`, and
the output classification expression `value & ~get_identifier_mask()`
(evaluated in the code's integer types, with the mask widened to
`unsigned long`) recovers exactly `id` from such a word. -/
theorem claim_C10 :
    identifier_mask = 0xFFFFFFF0 ∧
    (∀ id r : Nat, id < 2 ^ kIdWidth → r < 2 ^ 32 →
      genInputWord id r % 2 ^ kIdWidth = id ∧
      classifyOutput (genInputWord id r) = id) := by
  have hm : identifier_mask = (2 ^ 32 - 1) ^^^ (2 ^ 4 - 1) := by decide
  refine ⟨by decide, ?_⟩
  intro id r hid hr
  have hkw : kIdWidth = 4 := rfl
  constructor
  · apply Nat.eq_of_testBit_eq
    intro i
    unfold genInputWord
    rw [hm, hkw]
    simp only [Nat.testBit_mod_two_pow, Nat.testBit_lor, Nat.testBit_land,
      Nat.testBit_xor, Nat.testBit_two_pow_sub_one]
    by_cases hi : i < 4
    · have h32 : i < 32 := by omega
      simp [hi, h32]
    · have hbit : id.testBit i = false :=
        Nat.testBit_lt_two_pow (Nat.lt_of_lt_of_le hid
          (Nat.pow_le_pow_right (by norm_num) (by omega)))
      simp [hi, hbit]
  · apply Nat.eq_of_testBit_eq
    intro i
    unfold classifyOutput genInputWord compl64
    rw [hm]
    simp only [Nat.testBit_mod_two_pow, Nat.testBit_lor, Nat.testBit_land,
      Nat.testBit_xor, Nat.testBit_two_pow_sub_one]
    by_cases hi : i < 4
    · have h32 : i < 32 := by omega
      have h64 : i < 64 := by omega
      simp [hi, h32, h64]
    · have hbit : id.testBit i = false :=
        Nat.testBit_lt_two_pow (Nat.lt_of_lt_of_le hid
          (Nat.pow_le_pow_right (by norm_num) (by omega)))
      by_cases h32 : i < 32
      · have h64 : i < 64 := by omega
        simp [hi, h32, h64, hbit]
      · by_cases h64 : i < 64 <;> simp [hi, h32, h64, hbit]

/-- Witness for C10: the input word generated for identifier 5 from the
random draw `0x12345678` has low nibble 5 and classifies back to 5. -/
theorem claim_C10_witness :
    genInputWord 5 0x12345678 % 2 ^ kIdWidth = 5 ∧
    classifyOutput (genInputWord 5 0x12345678) = 5 :=
  (claim_C10.2 5 0x12345678 (by decide) (by decide))
